import Mathlib

/-!
Verification of the dotnet encoder (files `encoders/base.py`, `encoders/dotnet.py`).

The Python code is shallowly embedded: Python runtime values are modelled by the
inductive `PyObj` (the settings involved only ever handle integers, booleans,
strings, lists and string-keyed dicts; floats never occur in this encoder, so
numbers are modelled by `Int`), Python exceptions by the error type `PyErr`
carried in `Except`, and Python dicts by insertion-ordered association lists.
Python's `%` on integers is floor-based, which is Lean's `Int.fmod`.
-/

namespace Dotnet

/-- Model of the Python runtime values handled by the encoder. -/
inductive PyObj where
  | none
  | int (n : Int)
  | bool (b : Bool)
  | str (s : String)
  | list (xs : List PyObj)
  | dict (es : List (String × PyObj))

/-- Model of the exceptions the code can raise.  `settingConfig`,
`settingRuntime`, `encoderConfig`, `encoderRuntime` model the four user-defined
exception classes of `encoders/base.py`; the remaining constructors model the
Python builtin exceptions that can escape from the code. -/
inductive PyErr where
  | settingConfig (msg : String)
  | settingRuntime (msg : String)
  | encoderConfig (msg : String)
  | encoderRuntime (msg : String)
  | notImplemented
  | attributeError
  | typeError
  | keyError (k : String)
  | valueError
  | zeroDivision
deriving DecidableEq

/-- Python truthiness (`bool(x)`). -/
def truthy : PyObj → Bool
  | .none => false
  | .int n => n != 0
  | .bool b => b
  | .str s => s ≠ ""
  | .list xs => ¬ xs.isEmpty
  | .dict es => ¬ es.isEmpty

/-- `x is None`. -/
def PyObj.isNone : PyObj → Bool
  | .none => true
  | _ => false

/-- `isinstance(x, (int, float))` together with the numeric value.  In Python a
`bool` is an `int` (`True == 1`, `False == 0`). -/
def asInt? : PyObj → Option Int
  | .int n => some n
  | .bool b => some (if b then 1 else 0)
  | _ => Option.none

/-- Association-list lookup, modelling `d[k]` / `d.get(k)` on a Python dict. -/
def dGet (es : List (String × PyObj)) (k : String) : Option PyObj :=
  es.lookup k

/-- `obj.get(k, None)`: only dicts have `.get`; anything else raises
`AttributeError`. -/
def pyGet (o : PyObj) (k : String) : Except PyErr PyObj :=
  match o with
  | .dict es => .ok ((dGet es k).getD .none)
  | _ => .error .attributeError

/-- `obj.get(k, d)` with an explicit default. -/
def pyGetD (o : PyObj) (k : String) (d : PyObj) : Except PyErr PyObj :=
  match o with
  | .dict es => .ok ((dGet es k).getD d)
  | _ => .error .attributeError

/-- `obj[k]` with a string key: dicts raise `KeyError` when the key is missing,
every other object raises `TypeError`. -/
def pyIndex (o : PyObj) (k : String) : Except PyErr PyObj :=
  match o with
  | .dict es =>
    match dGet es k with
    | some v => .ok v
    | Option.none => .error (.keyError k)
  | _ => .error .typeError

/-- `len(obj)` for the sized objects; anything else raises `TypeError`. -/
def pyLen (o : PyObj) : Except PyErr Nat :=
  match o with
  | .str s => .ok s.length
  | .list xs => .ok xs.length
  | .dict es => .ok es.length
  | _ => .error .typeError

/-- Python `for`-iteration: a list yields its elements, a dict its keys, a
string its characters; other objects raise `TypeError`. -/
def pyIter (o : PyObj) : Except PyErr (List PyObj) :=
  match o with
  | .list xs => .ok xs
  | .dict es => .ok (es.map (fun kv => PyObj.str kv.1))
  | .str s => .ok (s.data.map (fun c => PyObj.str (String.mk [c])))
  | _ => .error .typeError

/-- Helper for `Except` results. -/
def exceptOk {ε α : Type} : Except ε α → Bool
  | .ok _ => true
  | .error _ => false

theorem except_bind_ok {ε α β : Type} (a : α) (f : α → Except ε β) :
    (do let x ← (Except.ok a : Except ε α); f x) = f a := rfl

theorem except_bind_error {ε α β : Type} (e : ε) (f : α → Except ε β) :
    (do let x ← (Except.error e : Except ε α); f x) = Except.error e := rfl

/- ### Decimal rendering and parsing (`str(int(v))` and `int(s)`) -/

/-- The decimal digit characters. -/
def digitChar : Nat → Char
  | 0 => '0'
  | 1 => '1'
  | 2 => '2'
  | 3 => '3'
  | 4 => '4'
  | 5 => '5'
  | 6 => '6'
  | 7 => '7'
  | 8 => '8'
  | 9 => '9'
  | _ => '*'

/-- Inverse of `digitChar` on actual digits: the numeric value of a decimal
digit character, `none` on anything else. -/
def charDigit? (c : Char) : Option Nat :=
  if '0' ≤ c ∧ c ≤ '9' then some (c.toNat - 48) else Option.none

/-- Decimal digit characters of a natural number (most significant first). -/
def natToDecChars (n : Nat) : List Char :=
  if n = 0 then ['0'] else ((Nat.digits 10 n).reverse.map digitChar)

/-- `str(int(v))` for an integer: minimal decimal form, `-`-signed. -/
def intToDec (n : Int) : String :=
  String.mk (if n < 0 then '-' :: natToDecChars n.natAbs else natToDecChars n.toNat)

/-- Accumulating decimal parser over characters. -/
def parseNatAux : List Char → Nat → Option Nat
  | [], acc => some acc
  | c :: rest, acc =>
    match charDigit? c with
    | some d => parseNatAux rest (10 * acc + d)
    | Option.none => Option.none

/-- Parse a non-empty all-digit character list. -/
def parseNatDec : List Char → Option Nat
  | [] => Option.none
  | cs => parseNatAux cs 0

/-- Parse an optionally `-`-signed decimal numeral (the fragment of Python's
`int(str)` conversion exercised by this encoder). -/
def parseDec (cs : List Char) : Option Int :=
  match cs with
  | [] => Option.none
  | c :: rest =>
    if c = '-' then (parseNatDec rest).map (fun m => -(m : Int))
    else (parseNatDec (c :: rest)).map (fun m => (m : Int))

/-- Python's `int(x)` conversion on the values this encoder can meet:
integers and booleans convert, strings are parsed as decimal numerals
(`ValueError` otherwise), everything else raises `TypeError`. -/
def pyToInt : PyObj → Except PyErr Int
  | .int n => .ok n
  | .bool b => .ok (if b then 1 else 0)
  | .str s =>
    match parseDec s.data with
    | some n => .ok n
    | Option.none => .error .valueError
  | _ => .error .typeError

theorem charDigit_digitChar {d : Nat} (hd : d < 10) : charDigit? (digitChar d) = some d := by
  interval_cases d <;> rfl

theorem parseNatAux_digits (M : List Char) :
    ∀ acc : Nat, (∀ c ∈ M, (charDigit? c).isSome) →
      parseNatAux M acc =
        some (M.foldl (fun a c => 10 * a + (charDigit? c).getD 0) acc) := by
  induction M with
  | nil => intro acc _; rfl
  | cons c rest ih =>
    intro acc h
    have hc : (charDigit? c).isSome := h c (List.mem_cons_self c rest)
    obtain ⟨d, hd⟩ := Option.isSome_iff_exists.mp hc
    simp only [parseNatAux, hd, List.foldl_cons, Option.getD_some]
    exact ih (10 * acc + d) (fun x hx => h x (List.mem_cons_of_mem c hx))

theorem foldr_decimal (L : List Nat) :
    ∀ acc : Nat, L.foldr (fun d a => 10 * a + d) acc = acc * 10 ^ L.length + Nat.ofDigits 10 L := by
  induction L with
  | nil => intro acc; simp [Nat.ofDigits]
  | cons d rest ih =>
    intro acc
    simp only [List.foldr_cons, ih acc, Nat.ofDigits_cons, List.length_cons]
    ring

theorem parseNatDec_natToDecChars (n : Nat) : parseNatDec (natToDecChars n) = some n := by
  rcases Nat.eq_zero_or_pos n with h0 | hpos
  · subst h0; rfl
  · have hne : Nat.digits 10 n ≠ [] := Nat.digits_ne_nil_iff_ne_zero.mpr (by omega)
    have hnz : n ≠ 0 := by omega
    have hdig : ∀ d ∈ Nat.digits 10 n, d < 10 := fun d hd => Nat.digits_lt_base (by norm_num) hd
    have hchars : natToDecChars n = (Nat.digits 10 n).reverse.map digitChar := by
      simp [natToDecChars, hnz]
    have hmem : ∀ c ∈ (Nat.digits 10 n).reverse.map digitChar, (charDigit? c).isSome := by
      intro c hc
      obtain ⟨d, hd, rfl⟩ := List.mem_map.mp hc
      have : d < 10 := hdig d (List.mem_reverse.mp hd)
      rw [charDigit_digitChar this]; rfl
    have hne2 : (Nat.digits 10 n).reverse.map digitChar ≠ [] := by
      simp [hne]
    have step1 := parseNatAux_digits ((Nat.digits 10 n).reverse.map digitChar) 0 hmem
    have hfold : ((Nat.digits 10 n).reverse.map digitChar).foldl
        (fun a c => 10 * a + (charDigit? c).getD 0) 0 = n := by
      rw [List.foldl_map]
      have : ∀ (L : List Nat), (∀ d ∈ L, d < 10) → ∀ acc : Nat,
          L.foldl (fun a d => 10 * a + (charDigit? (digitChar d)).getD 0) acc =
          L.foldl (fun a d => 10 * a + d) acc := by
        intro L
        induction L with
        | nil => intro _ acc; rfl
        | cons d rest ih =>
          intro hL acc
          simp only [List.foldl_cons]
          rw [charDigit_digitChar (hL d (List.mem_cons_self d rest))]
          exact ih (fun x hx => hL x (List.mem_cons_of_mem d hx)) _
      rw [this _ (fun d hd => hdig d (List.mem_reverse.mp hd)) 0]
      rw [List.foldl_reverse]
      have := foldr_decimal (Nat.digits 10 n) 0
      simp only [Nat.zero_mul, Nat.zero_add] at this
      rw [show (fun (x : Nat) (y : Nat) => 10 * y + x) = (fun d a => 10 * a + d) from rfl]
      rw [this]
      exact Nat.ofDigits_digits 10 n
    cases hcs : (Nat.digits 10 n).reverse.map digitChar with
    | nil => exact absurd hcs hne2
    | cons c cs =>
      rw [hchars, hcs]
      show parseNatAux (c :: cs) 0 = some n
      rw [← hcs, step1, hfold]

theorem natToDecChars_no_minus (n : Nat) : ∀ c ∈ natToDecChars n, c ≠ '-' := by
  intro c hc
  unfold natToDecChars at hc
  split at hc
  · simp at hc; subst hc; decide
  · obtain ⟨d, hd, rfl⟩ := List.mem_map.mp hc
    have : d < 10 := Nat.digits_lt_base (by norm_num) (List.mem_reverse.mp hd)
    interval_cases d <;> decide

theorem natToDecChars_ne_nil (n : Nat) : natToDecChars n ≠ [] := by
  unfold natToDecChars
  split
  · simp
  · simp only [ne_eq, List.map_eq_nil_iff, List.reverse_eq_nil_iff]
    exact Nat.digits_ne_nil_iff_ne_zero.mpr (by assumption)

theorem parseDec_nonneg_chars (n : Nat) : parseDec (natToDecChars n) = some (n : Int) := by
  cases hcs : natToDecChars n with
  | nil => exact absurd hcs (natToDecChars_ne_nil n)
  | cons c cs =>
    have hcne : c ≠ '-' := natToDecChars_no_minus n c (hcs ▸ List.mem_cons_self c cs)
    simp only [parseDec, if_neg hcne]
    rw [← hcs, parseNatDec_natToDecChars]
    rfl

/-- Round-trip of the decimal codec: parsing `str(int(n))` returns `n`. -/
theorem pyToInt_intToDec (n : Int) : pyToInt (PyObj.str (intToDec n)) = .ok n := by
  simp only [pyToInt, intToDec]
  by_cases hn : n < 0
  · simp only [if_pos hn]
    show (match parseDec ('-' :: natToDecChars n.natAbs) with
      | some m => Except.ok m
      | Option.none => Except.error PyErr.valueError) = Except.ok n
    have : parseDec ('-' :: natToDecChars n.natAbs) = some (-(n.natAbs : Int)) := by
      simp only [parseDec, if_pos rfl]
      rw [show parseNatDec (natToDecChars n.natAbs) = some n.natAbs from
        parseNatDec_natToDecChars n.natAbs]
      rfl
    rw [this]
    have hval : -((n.natAbs : Nat) : Int) = n := by omega
    rw [hval]
  · simp only [if_neg hn]
    have h1 : parseDec (natToDecChars n.toNat) = some ((n.toNat : Nat) : Int) :=
      parseDec_nonneg_chars n.toNat
    show (match parseDec (natToDecChars n.toNat) with
      | some m => Except.ok m
      | Option.none => Except.error PyErr.valueError) = Except.ok n
    rw [h1]
    have hval : ((n.toNat : Nat) : Int) = n := by omega
    rw [hval]

/- ### Value codecs (`IntToStrValueEncoder`, `IntToBoolValueEncoder`) -/

/-- `IntToStrValueEncoder.encode`: `str(int(value))`. -/
def IntToStrValueEncoder.encode (value : PyObj) : Except PyErr String :=
  (pyToInt value).map intToDec

/-- `IntToStrValueEncoder.decode`: `int(data)`. -/
def IntToStrValueEncoder.decode (data : PyObj) : Except PyErr Int :=
  pyToInt data

/-- `IntToBoolValueEncoder.encode`: `str(bool(value))`. -/
def IntToBoolValueEncoder.encode (value : PyObj) : String :=
  if truthy value then ("True") else ("False")

/-- `IntToBoolValueEncoder.decode`: `int(data)`. -/
def IntToBoolValueEncoder.decode (data : PyObj) : Except PyErr Int :=
  pyToInt data

/-- The two codec classes used by the dotnet settings. -/
inductive Codec where
  | intToStr
  | intToBool
deriving DecidableEq

/-- `self.get_value_encoder().encode(value)`. -/
def codecEncode : Codec → PyObj → Except PyErr String
  | .intToStr, v => IntToStrValueEncoder.encode v
  | .intToBool, v => .ok (IntToBoolValueEncoder.encode v)

/-- `self.get_value_encoder().decode(data)` — both codecs decode via `int(data)`. -/
def codecDecode : Codec → PyObj → Except PyErr Int
  | .intToStr, d => IntToStrValueEncoder.decode d
  | .intToBool, d => IntToBoolValueEncoder.decode d

/- ### `RangeSetting.validate_value` (`encoders/base.py` lines 165-181) -/

/-- Double-quote formatting helper `q(v)` of `encoders/base.py`. -/
def qs (s : String) : String := "\"" ++ s ++ "\""

/-- `RangeSetting.validate_value(value)` over the effective `min`, `max`,
`step` of a constructed setting: `None` and non-numbers are rejected, then the
bounds, then — only when `min < max` and `step > 0` — the step alignment
`(value - min) % step != 0`; otherwise the value is returned unchanged. -/
def validate_value (nm : String) (mn mx st : Int) (value : PyObj) : Except PyErr PyObj :=
  if value.isNone then
    .error (.settingRuntime ("No value provided for setting " ++ nm))
  else
    match asInt? value with
    | Option.none =>
      .error (.settingRuntime ("Value in setting " ++ qs nm ++ " must be either integer or float."))
    | some n =>
      if n < mn then
        .error (.settingRuntime ("Value is violating lower bound in setting " ++ qs nm))
      else if mx < n then
        .error (.settingRuntime ("Value is violating upper bound in setting " ++ qs nm))
      else if mn < mx ∧ 0 < st ∧ Int.fmod (n - mn) st ≠ 0 then
        .error (.settingRuntime ("Value is violating step requirement in setting " ++ qs nm))
      else
        .ok value

/- ### `RangeSetting.check_config` (`encoders/base.py` lines 79-153) -/

/-- The static, class-level data of a `RangeSetting` subtype: the built-in
default `min`/`max`/`step`/`default` attributes (`PyObj.none` meaning the
attribute is not defined) and the two policy flags. -/
structure RangeClass where
  name : String
  allowedOptions : List String
  dmin : PyObj := .none
  dmax : PyObj := .none
  dstep : PyObj := .none
  ddefault : PyObj := .none
  relaxable : Bool := true
  freeze_range : Bool := false

/-- The static configuration dict passed to a setting's constructor. -/
abbrev Cfg := List (String × PyObj)

/-- `self.config.get(key)` as used by the freeze-range check (no default). -/
def cfgRaw (cfg : Cfg) (k : String) : PyObj := (dGet cfg k).getD .none

/-- `Setting.check_config`: every configured option must be recognized. -/
def checkAllowed (allowed : List String) (cfg : Cfg) : Except PyErr Unit :=
  match cfg.find? (fun kv => ¬ kv.1 ∈ allowed) with
  | some kv => .error (.settingConfig ("Cannot recognize option " ++ qs kv.1 ++ " for setting."))
  | Option.none => .ok ()

/-- The effective option value `self.config.get(key, class_default)`. -/
def effOpt (cfg : Cfg) (k : String) (dflt : PyObj) : PyObj := (dGet cfg k).getD dflt

/-- Lines 84-118 of `RangeSetting.check_config`: presence and numeric checks on
the effective `min`/`max`/`step`, bound ordering, step sign/zero checks when
`min != max`, and the `(max - min) % step > 0` divisibility check; returns the
effective numeric triple. -/
def checkRangeCore (c : RangeClass) (cfg : Cfg) : Except PyErr (Int × Int × Int) :=
  if (effOpt cfg ("min") c.dmin).isNone then .error (.settingConfig ("No min value configured for setting " ++ qs c.name ++ " in jvm encoder."))
  else if (effOpt cfg ("max") c.dmax).isNone then .error (.settingConfig ("No max value configured for setting " ++ qs c.name ++ " in jvm encoder."))
  else if (effOpt cfg ("step") c.dstep).isNone then .error (.settingConfig ("No step value configured for setting " ++ qs c.name ++ " in jvm encoder."))
  else
    match asInt? (effOpt cfg ("min") c.dmin) with
    | Option.none => .error (.settingConfig ("Min value must be a number in setting " ++ qs c.name ++ " of jvm encoder."))
    | some mn =>
      match asInt? (effOpt cfg ("max") c.dmax) with
      | Option.none => .error (.settingConfig ("Max value must be a number in setting " ++ qs c.name ++ " of jvm encoder."))
      | some mx =>
        match asInt? (effOpt cfg ("step") c.dstep) with
        | Option.none => .error (.settingConfig ("Step value must be a number in setting " ++ qs c.name ++ " of jvm encoder."))
        | some st =>
          if mx < mn then .error (.settingConfig ("Lower boundary is higher than upper boundary in setting " ++ qs c.name ++ " of jvm encoder."))
          else if mn ≠ mx ∧ st < 0 then .error (.settingConfig ("Step for setting " ++ qs c.name ++ " must be a positive number."))
          else if mn ≠ mx ∧ st = 0 then .error (.settingConfig ("Step for setting " ++ qs c.name ++ " cannot be zero when min != max."))
          else if st ≠ 0 ∧ 0 < Int.fmod (mx - mn) st then .error (.settingConfig ("Step value for setting " ++ qs c.name ++ " must allow to get from min to max in equal steps."))
          else .ok (mn, mx, st)

/-- Message of the freeze-range rejection. -/
def freezeMsg (nm : String) : String :=
  "Cannot change min, max or step in setting " ++ qs nm ++ "."

/-- Lines 119-132 of `RangeSetting.check_config` (the `freeze_range` block):
the class must define `min`/`max`/`step`, and the configuration must not
supply a truthy `min`, `max` or `step`.  Note the Python code tests
`c.get('min') or c.get('max') or c.get('step')`, i.e. truthiness, so a
configured value of `0` is not detected. -/
def checkFreeze (c : RangeClass) (cfg : Cfg) : Except PyErr Unit :=
  if c.dmin.isNone then .error .notImplemented
  else if c.dmax.isNone then .error .notImplemented
  else if c.dstep.isNone then .error .notImplemented
  else if truthy (cfgRaw cfg ("min")) ∨ truthy (cfgRaw cfg ("max")) ∨ truthy (cfgRaw cfg ("step")) then
    .error (.settingConfig (freezeMsg c.name))
  else .ok ()

/-- Messages of the three relaxation rejections. -/
def relaxMinMsg (nm : String) : String :=
  "Min value for setting " ++ qs nm ++ " cannot be lower than the default."

def relaxMaxMsg (nm : String) : String :=
  "Max value for setting " ++ qs nm ++ " cannot be lower than the default."

def relaxStepMsg (nm : String) : String :=
  "Step value for setting " ++ qs nm ++ " must be multiple of provided default."

/-- Lines 133-153 of `RangeSetting.check_config` (the `relaxable is False`
block): the effective `min` must not undercut the built-in default `min`, the
effective `max` must not exceed the built-in default `max`, and the effective
`step` must satisfy `step % default_step > 0` is false (Python floor-`%`;
`% 0` raises `ZeroDivisionError`). -/
def checkRelax (c : RangeClass) (mn mx st : Int) : Except PyErr Unit :=
  if c.dmin.isNone then .error .notImplemented
  else
    match asInt? c.dmin with
    | Option.none => .error .typeError
    | some dmn =>
      if mn < dmn then .error (.settingConfig (relaxMinMsg c.name))
      else if c.dmax.isNone then .error .notImplemented
      else
        match asInt? c.dmax with
        | Option.none => .error .typeError
        | some dmx =>
          if dmx < mx then .error (.settingConfig (relaxMaxMsg c.name))
          else if c.dstep.isNone then .error .notImplemented
          else
            match asInt? c.dstep with
            | Option.none => .error .typeError
            | some dst =>
              if dst = 0 then .error .zeroDivision
              else if 0 < Int.fmod st dst then .error (.settingConfig (relaxStepMsg c.name))
              else .ok ()

/-- `RangeSetting.check_config` assembled in source order: recognized options,
range core checks, then the `freeze_range` block, then the `relaxable` block. -/
def check_config (c : RangeClass) (cfg : Cfg) : Except PyErr Unit :=
  match checkAllowed c.allowedOptions cfg with
  | .error e => .error e
  | .ok _ =>
    match checkRangeCore c cfg with
    | .error e => .error e
    | .ok r =>
      match (if c.freeze_range then checkFreeze c cfg else .ok ()) with
      | .error e => .error e
      | .ok _ =>
        if c.relaxable = false then checkRelax c r.1 r.2.1 r.2.2 else .ok ()

/-- Effective numeric `min`/`max`/`step` after construction (junk `0` when the
checks did not pass; `check_config` success guarantees numerics). -/
def effInt (cfg : Cfg) (k : String) (dflt : PyObj) : Int :=
  (asInt? (effOpt cfg k dflt)).getD 0

/- ### Concrete setting state (`encoders/dotnet.py`) -/

/-- Allowed options of every `DotnetRangeSetting` (`{'default','min','max',
'step'}` from `RangeSetting` plus `'unit'`). -/
def dotnetAllowed : List String := ["default", "min", "max", "step", "unit"]

/-- A constructed `RegistryRangeSetting`: resolved name, static registry path,
effective numeric range, static default and value codec. -/
structure RegistryRangeSetting where
  name : String
  path : String
  min : Int
  max : Int
  step : Int
  default : PyObj
  codec : Codec

/-- A constructed `WebConfigRangeSetting`: resolved name, optional
`name_override`, static filter, effective numeric range, default and codec.
It has no static path — the path is supplied per call. -/
structure WebConfigRangeSetting where
  name : String
  name_override : Option String
  filter : String
  min : Int
  max : Int
  step : Int
  default : PyObj
  codec : Codec

/-- The class-level data of a `RegistryRangeSetting` subtype. -/
structure RegClass extends RangeClass where
  path : Option String := Option.none
  codec : Option Codec := Option.none

/-- The class-level data of a `WebConfigRangeSetting` subtype. -/
structure WebCfgClass extends RangeClass where
  name_override : Option String := Option.none
  filter : Option String := Option.none
  codec : Option Codec := Option.none

/-- Construction of a `RegistryRangeSetting` from a static configuration,
mirroring the `__init__` chain: `RangeSetting.check_config`, then the
`DotnetRangeSetting` value-encoder check, then the `RegistryRangeSetting`
checks that `path` and the effective `default` are present. -/
def regConstruct (c : RegClass) (cfg : Cfg) : Except PyErr RegistryRangeSetting := do
  let _ ← check_config c.toRangeClass cfg
  match c.codec with
  | Option.none => throw .notImplemented
  | some cd =>
    match c.path with
    | Option.none => throw .notImplemented
    | some p =>
      let dflt := effOpt cfg ("default") c.ddefault
      if dflt.isNone then throw .notImplemented
      else
        pure { name := c.name, path := p,
               min := effInt cfg ("min") c.dmin, max := effInt cfg ("max") c.dmax,
               step := effInt cfg ("step") c.dstep, default := dflt, codec := cd }

/-- Construction of a `WebConfigRangeSetting`: `check_config`, the
value-encoder check, then the filter-presence check. -/
def webCfgConstruct (c : WebCfgClass) (cfg : Cfg) : Except PyErr WebConfigRangeSetting := do
  let _ ← check_config c.toRangeClass cfg
  match c.codec with
  | Option.none => throw .notImplemented
  | some cd =>
    match c.filter with
    | Option.none => throw .notImplemented
    | some f =>
      pure { name := c.name, name_override := c.name_override, filter := f,
             min := effInt cfg ("min") c.dmin, max := effInt cfg ("max") c.dmax,
             step := effInt cfg ("step") c.dstep,
             default := effOpt cfg ("default") c.ddefault, codec := cd }

/-- Registry path shared by the two concrete registry settings. -/
def uriHttpParamsPath : String :=
  "HKLM:\\System\\CurrentControlSet\\Services\\Http\\Parameters"

/-- Class data of `UriEnableCacheSetting` (a `RegistryBooleanSetting`):
`min=0, max=1, step=1, freeze_range=1 (truthy), default=1`. -/
def uriEnableCacheClass : RegClass :=
  { name := "UriEnableCache", allowedOptions := dotnetAllowed,
    dmin := .int 0, dmax := .int 1, dstep := .int 1, ddefault := .int 1,
    freeze_range := true, path := some uriHttpParamsPath, codec := some .intToStr }

/-- Class data of `UriScavengerPeriodSetting`: `min=10, max=0xFFFFFFFF,
step=1, default=120, relaxable=False, freeze_range=True`. -/
def uriScavengerPeriodClass : RegClass :=
  { name := "UriScavengerPeriod", allowedOptions := dotnetAllowed,
    dmin := .int 10, dmax := .int 4294967295, dstep := .int 1, ddefault := .int 120,
    relaxable := false, freeze_range := true,
    path := some uriHttpParamsPath, codec := some .intToStr }

/-- Class data of `WebConfigCacheEnabledSetting` (a `WebConfigBooleanSetting`):
`min=0, max=1, step=1, freeze_range=1`, `name_override='enabled'`,
`filter='system.webServer/caching'`, `default=1`. -/
def webConfigCacheEnabledClass : WebCfgClass :=
  { name := "WebConfigCacheEnabled", allowedOptions := dotnetAllowed,
    dmin := .int 0, dmax := .int 1, dstep := .int 1, ddefault := .int 1,
    freeze_range := true, name_override := some ("enabled"),
    filter := some ("system.webServer/caching"), codec := some .intToBool }

/-- Class data of `WebConfigEnableKernelCacheSetting`. -/
def webConfigEnableKernelCacheClass : WebCfgClass :=
  { name := "WebConfigEnableKernelCache", allowedOptions := dotnetAllowed,
    dmin := .int 0, dmax := .int 1, dstep := .int 1, ddefault := .int 1,
    freeze_range := true, name_override := some ("enableKernelCache"),
    filter := some ("system.webServer/caching"), codec := some .intToBool }

/-- The `UriEnableCacheSetting` instance built from an empty configuration. -/
def uriEnableCache : RegistryRangeSetting :=
  { name := "UriEnableCache", path := uriHttpParamsPath,
    min := 0, max := 1, step := 1, default := .int 1, codec := .intToStr }

/-- The `UriScavengerPeriodSetting` instance built from an empty configuration. -/
def uriScavengerPeriod : RegistryRangeSetting :=
  { name := "UriScavengerPeriod", path := uriHttpParamsPath,
    min := 10, max := 4294967295, step := 1, default := .int 120, codec := .intToStr }

/-- The `WebConfigCacheEnabledSetting` instance built from an empty configuration. -/
def webConfigCacheEnabled : WebConfigRangeSetting :=
  { name := "WebConfigCacheEnabled", name_override := some ("enabled"),
    filter := "system.webServer/caching",
    min := 0, max := 1, step := 1, default := .int 1, codec := .intToBool }

/-- The `WebConfigEnableKernelCacheSetting` instance built from an empty configuration. -/
def webConfigEnableKernelCache : WebConfigRangeSetting :=
  { name := "WebConfigEnableKernelCache", name_override := some ("enableKernelCache"),
    filter := "system.webServer/caching",
    min := 0, max := 1, step := 1, default := .int 1, codec := .intToBool }

/- ### Registry setting encode/decode (`encoders/dotnet.py` lines 50-112) -/

/-- Translate a caught `ValueError` from a codec decode into the
`SettingRuntimeException` raised by the `decode_option` handlers; every other
error propagates. -/
def catchValue (r : Except PyErr Int) (nm : String) : Except PyErr Int :=
  match r with
  | .error .valueError => .error (.settingRuntime ("Invalid value to decode for setting " ++ qs nm ++ "."))
  | x => x

/-- `RegistryRangeSetting.format_value`: one `Set-ItemProperty` line. -/
def RegistryRangeSetting.format_value (s : RegistryRangeSetting) (value : String) : String :=
  "Set-ItemProperty -Path \"" ++ s.path ++ "\" -Name \"" ++ s.name ++ "\" -Value " ++ value ++ "\n"

/-- `DotnetRangeSetting.encode_option` for a registry setting: validate,
transcode via the codec, render the assignment line. -/
def RegistryRangeSetting.encode_option (s : RegistryRangeSetting) (value : PyObj) : Except PyErr String := do
  let v ← validate_value s.name s.min s.max s.step value
  let encoded ← codecEncode s.codec v
  pure (s.format_value encoded)

/-- Message of the missing-registry-path rejection in
`RegistryRangeSetting.decode_option`. -/
def regPathMsg (path nm : String) : String :=
  "Registry path " ++ path ++ " for setting " ++ nm ++ " was not found in describe data"

/-- `RegistryRangeSetting.decode_option(data)`: `data.get(self.path)` (an
`AttributeError` when `data` is not a dict), an `EncoderRuntimeException` when
the looked-up value is falsy (missing path, or an empty dict), then
`reg.get(self.name, self.default)` and the codec decode with `ValueError`
translated to `SettingRuntimeException`. -/
def RegistryRangeSetting.decode_option (s : RegistryRangeSetting) (data : PyObj) : Except PyErr Int := do
  let reg ← pyGet data s.path
  if ¬ truthy reg then throw (.encoderRuntime (regPathMsg s.path s.name))
  else do
    let value ← pyGetD reg s.name s.default
    catchValue (codecDecode s.codec value) s.name

/- ### Web-config setting encode/decode (`encoders/dotnet.py` lines 139-198) -/

/-- The externally observed field name: `name_override` when present, else `name`. -/
def WebConfigRangeSetting.locator (s : WebConfigRangeSetting) : String :=
  s.name_override.getD s.name

/-- Rendering of a Python value by `'{}'.format(...)` for the objects that can
reach a format call in this encoder. -/
def pyFormat : PyObj → String
  | .none => "None"
  | .int n => intToDec n
  | .bool b => if b then ("True") else ("False")
  | .str s => s
  | .list _ => "[...]"
  | .dict _ => "\x7b...\x7d"

/-- `WebConfigRangeSetting.format_value`: one `Set-WebConfigurationProperty`
line scoped by filter, externally supplied path and resolved name. -/
def WebConfigRangeSetting.format_value (s : WebConfigRangeSetting) (path : PyObj) (value : String) : String :=
  "Set-WebConfigurationProperty -Filter \"" ++ s.filter ++ "\" -PSPath \"" ++ pyFormat path ++
    "\" -Name \"" ++ s.locator ++ "\" -Value " ++ value ++ "\n"

/-- `WebConfigRangeSetting.encode_option(path, value)`. -/
def WebConfigRangeSetting.encode_option (s : WebConfigRangeSetting) (path : PyObj) (value : PyObj) : Except PyErr String := do
  let v ← validate_value s.name s.min s.max s.step value
  let encoded ← codecEncode s.codec v
  pure (s.format_value path encoded)

/-- Message of the missing-name rejection in `WebConfigRangeSetting.decode_option`. -/
def wcLocateMsg (locator : String) : String :=
  "Unable to located value of setting by name(_override) " ++ locator ++ " within the describe data provided"

/-- `WebConfigRangeSetting.decode_option(data, path)`: `data[locator]` with a
caught `KeyError` turned into an `EncoderRuntimeException`, then the codec
decode with `ValueError` translated.  `path` is accepted but unused. -/
def WebConfigRangeSetting.decode_option (s : WebConfigRangeSetting) (data : PyObj) (path : String) : Except PyErr Int := do
  let value ← match pyIndex data s.locator with
    | .error (.keyError _) => throw (.encoderRuntime (wcLocateMsg s.locator))
    | x => x
  catchValue (codecDecode s.codec value) s.name

/-- `WebConfigRangeSetting.encode_describe(path)`: one read statement per
`(path, filter)` pair. -/
def WebConfigRangeSetting.encode_describe (s : WebConfigRangeSetting) (path : String) : String :=
  "Get-WebConfiguration -pspath \"" ++ path ++ "\" -filter \"" ++ s.filter ++ "\""

/- ### The encoder's setting table -/

/-- One instantiated setting owned by the encoder: a registry range setting, a
web-config range setting, or the aggregate `WebConfigSetting`
(`type == 'config_list'`, which has no per-instance state). -/
inductive SettingInst where
  | reg (s : RegistryRangeSetting)
  | wcRange (s : WebConfigRangeSetting)
  | wcList

/-- Whether an instance is a `WebConfigRangeSetting` (`isinstance` test used
throughout the encoder). -/
def SettingInst.isWcRange : SettingInst → Bool
  | .wcRange _ => true
  | _ => false

/-- The encoder's `settings` table (`name -> instance`, insertion ordered)
plus the `before`/`after` config fragments. -/
structure Encoder where
  settings : List (String × SettingInst)
  before : String := ""
  after : String := ""

/- ### Aggregate `WebConfigSetting` (`encoders/dotnet.py` lines 227-369) -/

/-- Allowed per-record keys of the aggregate value. -/
def wcAllowed : List String := ["path", "values"]

/-- `setting_instance.validate_value(v)` dispatched over an owned instance.
Calling the aggregate's own `validate_value` through this path passes one
argument where two are required: a `TypeError`. -/
def instValidate : SettingInst → PyObj → Except PyErr PyObj
  | .reg s, v => validate_value s.name s.min s.max s.step v
  | .wcRange s, v => validate_value s.name s.min s.max s.step v
  | .wcList, _ => .error .typeError

/-- First pass of `WebConfigSetting.validate_value`: collect the records with
unrecognized top-level keys (each record's `.keys()` raises `AttributeError`
when the record is not a dict). -/
def wcBadItems : List PyObj → Except PyErr (List PyObj)
  | [] => .ok []
  | it :: rest =>
    match it with
    | .dict es => do
      let r ← wcBadItems rest
      if es.any (fun kv => ¬ kv.1 ∈ wcAllowed) then pure (it :: r) else pure r
    | _ => .error .attributeError

/-- Per-record member validation of `WebConfigSetting.validate_value`: each
named value must resolve in the encoder's settings table and its `'value'`
entry must validate against the resolved setting. -/
def wcValidateEntries (settings : List (String × SettingInst)) : List (String × PyObj) → Except PyErr Unit
  | [] => .ok ()
  | (nm, val) :: rest =>
    match settings.lookup nm with
    | Option.none => .error (.encoderRuntime ("Setting \"" ++ nm ++ "\" is not supported in dotnet encoder webconfig setting."))
    | some inst => do
      let inner ← match val with
        | .dict es => pure ((dGet es ("value")).getD .none)
        | _ => Except.error PyErr.attributeError
      let _ ← instValidate inst inner
      wcValidateEntries settings rest

/-- Record loop of `WebConfigSetting.validate_value`: look up each record's
`'values'` dict (`KeyError` when missing) and validate its members. -/
def wcValidateRecords (settings : List (String × SettingInst)) : List PyObj → Except PyErr Unit
  | [] => .ok ()
  | rec :: rest => do
    let vd ← pyIndex rec ("values")
    match vd with
    | .dict es => do
      let _ ← wcValidateEntries settings es
      wcValidateRecords settings rest
    | _ => Except.error PyErr.attributeError

/-- `WebConfigSetting.validate_value(value, encoder_settings)`: the value must
be a list, contain no unrecognized record keys, be non-empty, and every
referenced member must validate; the value is returned unchanged. -/
def wcListValidateValue (value : PyObj) (settings : List (String × SettingInst)) : Except PyErr PyObj :=
  match value with
  | .list items => do
    let bad ← wcBadItems items
    if ¬ bad.isEmpty then
      throw (.encoderRuntime ("Cannot recognize option(s) for setting \"WebConfig\"."))
    else if items.isEmpty then
      throw (.encoderRuntime ("No values have been provided for setting WebConfig."))
    else do
      let _ ← wcValidateRecords settings items
      pure value
  | _ => .error (.encoderRuntime ("Setting \"WebConfig\" must have its value be a list or undefined."))

/-- `val.get('value', val) if isinstance(val, dict) else val`. -/
def extractVal (val : PyObj) : PyObj :=
  match val with
  | .dict es => (dGet es ("value")).getD val
  | _ => val

/-- `setting.encode_option(path, v)` dispatched over an owned instance: only a
`WebConfigRangeSetting` accepts the two-argument form; a registry setting
raises `TypeError` (too many positional arguments); the aggregate rejects the
path, which is not a list, in its own `validate_value`. -/
def instEncodePath (inst : SettingInst) (path : PyObj) (v : PyObj) : Except PyErr String :=
  match inst with
  | .wcRange w => w.encode_option path v
  | .reg _ => .error .typeError
  | .wcList => .error (.encoderRuntime ("Setting \"WebConfig\" must have its value be a list or undefined."))

/-- Member loop of `WebConfigSetting.encode_option`: resolve each named value
in the settings table, look up the record's `'path'` (a missing path key is
reported as `Setting path is required`), and append the member's encoding. -/
def wcEncodeValues (settings : List (String × SettingInst)) (rec : PyObj) : List (String × PyObj) → String → Except PyErr String
  | [], acc => .ok acc
  | (nm, val) :: rest, acc =>
    match settings.lookup nm with
    | Option.none => .error (.encoderRuntime ("Setting " ++ nm ++ " was not included in the encoder configuration"))
    | some inst => do
      let path ← match pyIndex rec ("path") with
        | .error (.keyError _) => throw (.encoderRuntime ("Setting path is required for all webconfig settings"))
        | x => x
      let e ← instEncodePath inst path (extractVal val)
      wcEncodeValues settings rec rest (acc ++ e)

/-- Record loop of `WebConfigSetting.encode_option`. -/
def wcEncodeRecords (settings : List (String × SettingInst)) : List PyObj → String → Except PyErr String
  | [], acc => .ok acc
  | rec :: rest, acc => do
    let vd ← pyIndex rec ("values")
    match vd with
    | .dict es => do
      let acc2 ← wcEncodeValues settings rec es acc
      wcEncodeRecords settings rest acc2
    | _ => Except.error PyErr.attributeError

/-- `WebConfigSetting.encode_option(value, encoder_settings)`: `None` encodes
to the empty string; otherwise validate, then prefix the member encodings with
the module import preamble. -/
def wcListEncodeOption (value : PyObj) (settings : List (String × SettingInst)) : Except PyErr String :=
  if value.isNone then .ok ("")
  else do
    let v ← wcListValidateValue value settings
    match v with
    | .list items => wcEncodeRecords settings items ("Import-Module WebAdministration\n")
    | _ => pure ("")

/-- Replace-or-append update of an association list, modelling
`dict.update({k: v})`. -/
def dictUpdate (es : List (String × PyObj)) (k : String) (v : PyObj) : List (String × PyObj) :=
  if es.any (fun kv => kv.1 = k) then es.map (fun kv => if kv.1 = k then (k, v) else kv)
  else es ++ [(k, v)]

/-- Matching-settings loop of `WebConfigSetting.decode_option`: for every
owned `WebConfigRangeSetting` whose filter matches, decode the filter block
and record the value under the setting's name. -/
def wcDecodeInner (path filt : String) (fval : PyObj) : List (String × SettingInst) → List (String × PyObj) → Except PyErr (List (String × PyObj))
  | [], acc => .ok acc
  | (_, SettingInst.wcRange w) :: rest, acc =>
    if w.filter = filt then do
      let n ← w.decode_option fval path
      wcDecodeInner path filt fval rest (dictUpdate acc w.name (PyObj.dict [("value", PyObj.int n)]))
    else wcDecodeInner path filt fval rest acc
  | _ :: rest, acc => wcDecodeInner path filt fval rest acc

/-- Filter loop of `WebConfigSetting.decode_option` for one path. -/
def wcDecodeFilters (settings : List (String × SettingInst)) (path : String) : List (String × PyObj) → List (String × PyObj) → Except PyErr (List (String × PyObj))
  | [], acc => .ok acc
  | (filt, fval) :: rest, acc => do
    let acc2 ← wcDecodeInner path filt fval settings acc
    wcDecodeFilters settings path rest acc2

/-- Path loop of `WebConfigSetting.decode_option`: produce one
`{path, values}` record per path in the describe data (`pathval.items()`
raises `AttributeError` when a path maps to a non-dict). -/
def wcDecodePaths (settings : List (String × SettingInst)) : List (String × PyObj) → Except PyErr (List PyObj)
  | [] => .ok []
  | (path, pathval) :: rest => do
    let vals ← match pathval with
      | .dict fes => wcDecodeFilters settings path fes []
      | _ => Except.error PyErr.attributeError
    let r ← wcDecodePaths settings rest
    pure (PyObj.dict [("path", PyObj.str path), ("values", PyObj.dict vals)] :: r)

/-- `WebConfigSetting.decode_option(data, encoder_settings)`: `data.get
("WebConfig")`, `None` when falsy, an `EncoderRuntimeException` when not a
dict, else the per-path decode producing `{path, values}` records. -/
def wcListDecodeOption (data : PyObj) (settings : List (String × SettingInst)) : Except PyErr PyObj := do
  let wc ← pyGet data ("WebConfig")
  if ¬ truthy wc then pure .none
  else
    match wc with
    | .dict es => do
      let lst ← wcDecodePaths settings es
      pure (.list lst)
    | _ => throw (.encoderRuntime ("Describe WebConfig data must have its value be a dict or undefined."))

/- ### Encoder multi-value operations (`encoders/dotnet.py` lines 402-449) -/

/-- Per-setting dispatch of `Encoder._encode_multi`: the aggregate gets the
whole settings table, a flat setting its value alone (the one-argument call on
a `WebConfigRangeSetting` is missing its `path` argument: `TypeError`). -/
def instEncode (allS : List (String × SettingInst)) : SettingInst → PyObj → Except PyErr String
  | .reg s, v => s.encode_option v
  | .wcRange _, _ => .error .typeError
  | .wcList, v => wcListEncodeOption v allS

/-- The loop of `Encoder._encode_multi`: pop each owned setting's value (a
missing or `None` value is skipped) and append its encoding. Returns the
remaining unclaimed entries together with the accumulated script. -/
def encodeMultiLoop (allS : List (String × SettingInst)) : List (String × SettingInst) → List (String × PyObj) → String → Except PyErr (List (String × PyObj) × String)
  | [], vals, acc => .ok (vals, acc)
  | (n, inst) :: rest, vals, acc =>
    let sv := (vals.lookup n).getD .none
    let vals2 := vals.filter (fun kv => kv.1 ≠ n)
    if sv.isNone then encodeMultiLoop allS rest vals2 acc
    else do
      let e ← instEncode allS inst sv
      encodeMultiLoop allS rest vals2 (acc ++ e)

/-- Message of the unclaimed-keys rejection of `Encoder._encode_multi`. -/
def unsupportedMsg (keys : List String) : String :=
  "We received settings to encode we do not support: " ++ String.intercalate (", ") keys

/-- `Encoder._encode_multi(values)`: `before` fragment, per-setting encodings,
`after` fragment; fails with an `EncoderRuntimeException` naming the leftover
keys when `values` still holds entries not claimed by any owned setting. -/
def encodeMultiRaw (enc : Encoder) (values : List (String × PyObj)) : Except PyErr String := do
  let r ← encodeMultiLoop enc.settings enc.settings values enc.before
  let encoded := r.2 ++ enc.after
  if r.1.isEmpty then pure encoded
  else throw (.encoderRuntime (unsupportedMsg (r.1.map Prod.fst)))

/-- The `expected_type` argument of `Encoder.encode_multi` (`None` defaults to
`str`). -/
inductive ExpectedType where
  | str
  | list
  | other
deriving DecidableEq

/-- `Encoder.encode_multi(values, expected_type)`: the raw script as one
string, or split on newlines, or an `EncoderConfigException` for an
unrecognized expected type. -/
def encode_multi (enc : Encoder) (values : List (String × PyObj)) (et : ExpectedType) : Except PyErr PyObj := do
  let s ← encodeMultiRaw enc values
  match et with
  | .str => pure (.str s)
  | .list => pure (.list ((s.splitOn ("\n")).map PyObj.str))
  | .other => throw (.encoderConfig ("Unrecognized expected_type passed on encode in dotnet encoder."))

/-- The loop of `Encoder._decode_multi`: every owned setting that is not a
`WebConfigRangeSetting` contributes one entry; the aggregate delegates with the
whole settings table. -/
def decodeMultiLoop (allS : List (String × SettingInst)) (data : PyObj) : List (String × SettingInst) → Except PyErr (List (String × PyObj))
  | [] => .ok []
  | (_, SettingInst.wcRange _) :: rest => decodeMultiLoop allS data rest
  | (n, SettingInst.wcList) :: rest => do
    let v ← wcListDecodeOption data allS
    let r ← decodeMultiLoop allS data rest
    pure ((n, v) :: r)
  | (n, SettingInst.reg s) :: rest => do
    let v ← s.decode_option data
    let r ← decodeMultiLoop allS data rest
    pure ((n, PyObj.int v) :: r)

/-- `Encoder._decode_multi(data)`. -/
def decodeMultiRaw (enc : Encoder) (data : PyObj) : Except PyErr (List (String × PyObj)) :=
  decodeMultiLoop enc.settings data enc.settings

/- ### Describe-script generation (`encoders/dotnet.py` lines 274-299, 451-471) -/

/-- The read statement emitted for one `(path, filter)` pair inside the
WebConfig describe block. -/
def wcReadLine (path filt : String) : String :=
  "\t\t\t\"" ++ filt ++ "\" = Get-WebConfiguration -pspath \"" ++ path ++ "\" -filter \"" ++ filt ++ "\"\n"

/-- The filter loop of `WebConfigSetting.encode_describe` for one path:
`encode_describe` runs once per unique filter (`filters_done`). Returns the
set of done filters in emission order together with the emitted lines. -/
def wcFilterLoop (path : String) : List (String × SettingInst) → List String → String → List String × String
  | [], done, acc => (done, acc)
  | (_, SettingInst.wcRange w) :: rest, done, acc =>
    if w.filter ∈ done then wcFilterLoop path rest done acc
    else wcFilterLoop path rest (done ++ [w.filter]) (acc ++ wcReadLine path w.filter)
  | _ :: rest, done, acc => wcFilterLoop path rest done acc

/-- Path loop of `WebConfigSetting.encode_describe`. -/
def wcPathsLoop (settings : List (String × SettingInst)) : List PyObj → String → Except PyErr String
  | [], acc => .ok acc
  | item :: rest, acc => do
    let p ← pyIndex item ("path")
    let ps := pyFormat p
    let inner := (wcFilterLoop ps settings [] "").2
    wcPathsLoop settings rest (acc ++ "\t\t\"" ++ ps ++ "\" = @\x7b\n" ++ inner ++ "\t\t\x7d\n")

/-- `WebConfigSetting.encode_describe(adjust_driver_config, encoder_settings)`:
empty when the adjust config has no truthy `WebConfig` entry, no configured
paths or no relevant settings; otherwise one `@{...}` block per path, each
filter queried once. -/
def wcListEncodeDescribe (adjust : PyObj) (settings : List (String × SettingInst)) : Except PyErr String := do
  let wc0 ← pyGet adjust ("WebConfig")
  if ¬ truthy wc0 then pure ("")
  else do
    let vlist ← pyIndex wc0 ("value")
    let n ← pyLen vlist
    if n < 1 ∨ settings.length < 1 then pure ("")
    else do
      let items ← pyIter vlist
      let body ← wcPathsLoop settings items ("")
      pure ("\t\"WebConfig\" = @\x7b\n" ++ body ++ "\t\x7d\n")

/-- The setting loop of `Encoder.encode_describe`: the aggregate emits the
WebConfig block over the owned `WebConfigRangeSetting`s, web-config range
settings are skipped, and registry settings emit one `Get-ItemProperty` read
per unique registry path (`reg_paths_done`).  Returns the done registry paths
in emission order with the script body. -/
def encDescribeLoop (allS : List (String × SettingInst)) (adjust : PyObj) : List (String × SettingInst) → List String → String → Except PyErr (List String × String)
  | [], done, acc => .ok (done, acc)
  | (_, inst) :: rest, done, acc =>
    match inst with
    | .wcList => do
      let block ← wcListEncodeDescribe adjust (allS.filter (fun kv => kv.2.isWcRange))
      encDescribeLoop allS adjust rest done (acc ++ block)
    | .wcRange _ => encDescribeLoop allS adjust rest done acc
    | .reg s =>
      if s.path ∈ done then encDescribeLoop allS adjust rest done acc
      else encDescribeLoop allS adjust rest (done ++ [s.path])
        (acc ++ "\t\"" ++ s.path ++ "\" = Get-ItemProperty -Path \"" ++ s.path ++ "\"\n")

/-- `Encoder.encode_describe(adjust_driver_config)`: optional module import,
the `@{` header, the deduplicated per-setting read statements, and the
`} | ConvertTo-Json` footer. -/
def encode_describe (enc : Encoder) (adjust : PyObj) : Except PyErr String := do
  let wcFlag ← pyGet adjust ("WebConfig")
  let head := if truthy wcFlag then ("Import-Module WebAdministration\n") else ("")
  let r ← encDescribeLoop enc.settings adjust enc.settings [] ""
  pure (head ++ "@\x7b\n" ++ r.2 ++ "\x7d | ConvertTo-Json\n")

/- ### Shared inversion lemmas on configuration checking -/

/-- A value with a numeric interpretation is not `None`. -/
theorem isNone_false_of_asInt {v : PyObj} {n : Int} (h : asInt? v = some n) : v.isNone = false := by
  cases v <;> simp_all [asInt?, PyObj.isNone]

/-- Success of `check_config` implies the option check and the core range
check succeeded. -/
theorem check_config_ok_parts (c : RangeClass) (cfg : Cfg) (h : check_config c cfg = .ok ()) :
    checkAllowed c.allowedOptions cfg = .ok () ∧ ∃ r, checkRangeCore c cfg = .ok r := by
  cases ha : checkAllowed c.allowedOptions cfg with
  | error e => unfold check_config at h; rw [ha] at h; cases h
  | ok u =>
    cases u
    cases hc : checkRangeCore c cfg with
    | error e => unfold check_config at h; rw [ha, hc] at h; cases h
    | ok r => exact ⟨rfl, r, rfl⟩

/-- Success of the core range check yields the bound ordering and the step
positivity when the bounds differ. -/
theorem checkRangeCore_ok_facts (c : RangeClass) (cfg : Cfg) (mn mx st : Int)
    (h : checkRangeCore c cfg = .ok (mn, mx, st)) :
    mn ≤ mx ∧ (mn ≠ mx → 0 < st) ∧ (st ≠ 0 → Int.fmod (mx - mn) st ≤ 0) := by
  unfold checkRangeCore at h
  split at h
  · cases h
  · split at h
    · cases h
    · split at h
      · cases h
      · split at h
        · cases h
        · split at h
          · cases h
          · split at h
            · cases h
            · split at h
              · cases h
              · split at h
                · cases h
                · split at h
                  · cases h
                  · split at h
                    · cases h
                    · next h1 h2 h3 h4 =>
                      injection h with h5
                      rw [Prod.mk.injEq, Prod.mk.injEq] at h5
                      obtain ⟨rfl, rfl, rfl⟩ := h5
                      push_neg at h1 h2 h3 h4
                      refine ⟨by omega, ?_, h4⟩
                      intro hne
                      have ha := h2 hne
                      have hb := h3 hne
                      omega

/- ### Claim C7 — the integer/boolean-keyword codec -/

/-- C7 counterexample: decoding the text produced by
`IntToBoolValueEncoder.encode` does not yield `1` — `int("True")` raises
`ValueError`, so `decode(encode(1))` fails instead of returning `1`. -/
theorem c7_counterexample :
    IntToBoolValueEncoder.decode (PyObj.str (IntToBoolValueEncoder.encode (PyObj.int 1))) =
      .error .valueError := rfl

/-- C7 (amended): the codec encodes `0` to `"False"` and every nonzero integer
to `"True"`; `decode` maps the boolean values `True`/`False` (the parsed form
of those keywords in describe data) to `1`/`0`, but applied to the encoded
keyword text itself it always raises `ValueError` — the decode∘encode
composition on the text never returns. -/
theorem c7_int_bool_codec_amended :
    (∀ n : Int, IntToBoolValueEncoder.encode (PyObj.int n) = if n = 0 then ("False") else ("True"))
    ∧ IntToBoolValueEncoder.decode (PyObj.bool true) = .ok 1
    ∧ IntToBoolValueEncoder.decode (PyObj.bool false) = .ok 0
    ∧ (∀ n : Int, IntToBoolValueEncoder.decode
        (PyObj.str (IntToBoolValueEncoder.encode (PyObj.int n))) = .error .valueError) := by
  refine ⟨?_, rfl, rfl, ?_⟩
  · intro n
    by_cases hn : n = 0
    · subst hn; rfl
    · simp only [IntToBoolValueEncoder.encode, truthy, if_neg hn]
      rw [if_pos (by simpa using hn)]
  · intro n
    by_cases hn : n = 0
    · subst hn; rfl
    · show IntToBoolValueEncoder.decode (PyObj.str (if (n != 0) = true then ("True") else ("False"))) = _
      rw [if_pos (by simpa using hn)]
      rfl

/- ### Claim C2 — encode/decode round-trips -/

/-- C2 counterexample: feeding the script text produced by `encode_option`
straight into `decode_option` does not return the value — `decode_option`
calls `.get` on its argument, and a string has no `.get`: `AttributeError`.
(The first conjunct shows the encode itself succeeded.) -/
theorem c2_counterexample :
    exceptOk (uriEnableCache.encode_option (PyObj.int 1)) = true
    ∧ (match uriEnableCache.encode_option (PyObj.int 1) with
        | .ok t => uriEnableCache.decode_option (PyObj.str t)
        | .error e => .error e) = .error .attributeError := ⟨rfl, rfl⟩

/-- C2 (amended): `decode_option` consumes structured describe data only.
For every registry and web-config range setting, decoding structured data that
stores the codec's encoded decimal text under the setting's path/resolved name
returns the value (for the int↔str codec this is `decode(encode(v)) = v`);
applying `decode_option` to generated script text always raises
`AttributeError`; and for the bool-keyword codec the encoded text itself never
decodes (`ValueError`). -/
theorem c2_roundtrip_amended :
    (∀ n : Int, IntToStrValueEncoder.decode (PyObj.str (intToDec n)) = .ok n)
    ∧ (∀ (s : RegistryRangeSetting) (n : Int),
        s.decode_option (PyObj.dict [(s.path, PyObj.dict [(s.name, PyObj.str (intToDec n))])]) = .ok n)
    ∧ (∀ (w : WebConfigRangeSetting) (path : String) (n : Int),
        w.decode_option (PyObj.dict [(w.locator, PyObj.str (intToDec n))]) path = .ok n)
    ∧ (∀ (s : RegistryRangeSetting) (t : String),
        s.decode_option (PyObj.str t) = .error .attributeError)
    ∧ (∀ n : Int, IntToBoolValueEncoder.decode
        (PyObj.str (IntToBoolValueEncoder.encode (PyObj.int n))) = .error .valueError) := by
  refine ⟨?_, ?_, ?_, ?_, ?_⟩
  · intro n
    exact pyToInt_intToDec n
  · intro s n
    have hdec : codecDecode s.codec (PyObj.str (intToDec n)) = .ok n := by
      cases s.codec with
      | intToStr => exact pyToInt_intToDec n
      | intToBool => exact pyToInt_intToDec n
    simp [RegistryRangeSetting.decode_option, pyGet, dGet, pyGetD, truthy, catchValue, hdec,
      except_bind_ok, List.lookup]
  · intro w path n
    have hdec : codecDecode w.codec (PyObj.str (intToDec n)) = .ok n := by
      cases w.codec with
      | intToStr => exact pyToInt_intToDec n
      | intToBool => exact pyToInt_intToDec n
    simp [WebConfigRangeSetting.decode_option, pyIndex, dGet, catchValue, hdec,
      except_bind_ok, List.lookup]
  · intro s t
    rfl
  · intro n
    by_cases hn : n = 0
    · subst hn; rfl
    · show IntToBoolValueEncoder.decode (PyObj.str (if (n != 0) = true then ("True") else ("False"))) = _
      rw [if_pos (by simpa using hn)]
      rfl

/- ### Claim C3 — freeze_range rejection of configured overrides -/

/-- C3 counterexample: `UriEnableCacheSetting` has `freeze_range` set and a
built-in default `min = 0`; a static configuration supplying `min: 0` — the
same numeric value as the built-in default — is nevertheless accepted, because
the code tests `config.get('min') or ...`, and `0` is falsy. -/
theorem c3_counterexample :
    exceptOk (regConstruct uriEnableCacheClass [("min", PyObj.int 0)]) = true
    ∧ uriEnableCacheClass.freeze_range = true
    ∧ uriEnableCacheClass.dmin = PyObj.int 0 := ⟨rfl, rfl, rfl⟩

/-- The same setting class with the freeze and relaxation policies disabled
(used to state that the rest of the configuration is valid). -/
def noFreezeRelax (c : RangeClass) : RangeClass :=
  { c with freeze_range := false, relaxable := true }

/-- The same setting class with only the freeze policy disabled. -/
def noFreeze (c : RangeClass) : RangeClass :=
  { c with freeze_range := false }

/-- C3 (amended): for a `freeze_range` setting subtype whose class defines its
range and whose configuration is otherwise valid, construction fails with a
`SettingConfigException` exactly when the configuration supplies a *truthy*
(nonzero) `min`, `max` or `step`; a supplied falsy value such as `0` passes the
freeze check unnoticed. -/
theorem c3_freeze_truthy_amended (c : RangeClass) (cfg : Cfg)
    (hfr : c.freeze_range = true)
    (hd1 : c.dmin.isNone = false) (hd2 : c.dmax.isNone = false) (hd3 : c.dstep.isNone = false)
    (hpre : check_config (noFreezeRelax c) cfg = .ok ()) :
    ((truthy (cfgRaw cfg ("min")) ∨ truthy (cfgRaw cfg ("max")) ∨ truthy (cfgRaw cfg ("step"))) →
        check_config c cfg = .error (.settingConfig (freezeMsg c.name)))
    ∧ (¬ (truthy (cfgRaw cfg ("min")) ∨ truthy (cfgRaw cfg ("max")) ∨ truthy (cfgRaw cfg ("step"))) →
        check_config c cfg = check_config (noFreeze c) cfg) := by
  obtain ⟨ha, r, hcore⟩ := check_config_ok_parts (noFreezeRelax c) cfg hpre
  have ha' : checkAllowed c.allowedOptions cfg = .ok () := ha
  have hcore' : checkRangeCore c cfg = .ok r := hcore
  constructor
  · intro htru
    have hfz : checkFreeze c cfg = .error (.settingConfig (freezeMsg c.name)) := by
      unfold checkFreeze
      rw [hd1, hd2, hd3]
      simp only [Bool.false_eq_true, if_false]
      rw [if_pos htru]
    unfold check_config
    rw [ha', hcore', hfr]
    simp only [if_true, hfz]
  · intro htru
    have hfz : checkFreeze c cfg = .ok () := by
      unfold checkFreeze
      rw [hd1, hd2, hd3]
      simp only [Bool.false_eq_true, if_false]
      rw [if_neg htru]
    unfold check_config
    rw [ha', hcore', hfr, hfz]
    have ha2 : checkAllowed (noFreeze c).allowedOptions cfg = .ok () := ha
    have hcore2 : checkRangeCore (noFreeze c) cfg = .ok r := hcore
    rw [ha2, hcore2]
    simp only [noFreeze, Bool.false_eq_true, if_false]
    rfl

/-- C3 witness: `UriEnableCacheSetting` with configured `min: 1` (truthy, and
equal to nothing in particular) is rejected with the freeze message. -/
theorem c3_witness :
    check_config uriEnableCacheClass.toRangeClass [("min", PyObj.int 1)] =
      .error (.settingConfig (freezeMsg ("UriEnableCache"))) := by
  have h := c3_freeze_truthy_amended uriEnableCacheClass.toRangeClass
    [("min", PyObj.int 1)] rfl rfl rfl rfl rfl
  exact h.1 (Or.inl (by decide))

/- ### Claim C8 — relaxation limits for relaxable=False subtypes -/

/-- C8 counterexample: `UriScavengerPeriodSetting` has `relaxable = False` and
built-in default `min = 10`, but a configured `min: 20` — equal to or greater
than the built-in default — is *not* accepted: the subtype also freezes its
range, and the freeze check rejects the override first. -/
theorem c8_counterexample :
    regConstruct uriScavengerPeriodClass [("min", PyObj.int 20)] =
      .error (.settingConfig (freezeMsg ("UriScavengerPeriod")))
    ∧ uriScavengerPeriodClass.relaxable = false
    ∧ (10 : Int) ≤ 20 := ⟨rfl, rfl, by norm_num⟩

/-- The same setting class with only the relaxation policy disabled. -/
def relaxOn (c : RangeClass) : RangeClass :=
  { c with relaxable := true }

/-- C8 (amended): for a `relaxable = False` subtype that does **not** also
freeze its range, with numeric built-in defaults and a positive default step,
and an otherwise valid configuration: construction succeeds exactly when the
effective `min` is at least the built-in default `min`, the effective `max` is
at most the built-in default `max`, and the effective `step` is an exact
multiple of the built-in default `step`; each violation fails with the
corresponding `SettingConfigException`.  (For subtypes that also set
`freeze_range`, the freeze check rejects any truthy configured override first,
even one equal to or above the default — see the counterexample.) -/
theorem c8_relax_amended (c : RangeClass) (cfg : Cfg) (mn mx st dmn dmx dst : Int)
    (hrx : c.relaxable = false) (hfr : c.freeze_range = false)
    (h1 : asInt? c.dmin = some dmn) (h2 : asInt? c.dmax = some dmx) (h3 : asInt? c.dstep = some dst)
    (hdst : 0 < dst)
    (hpre : check_config (relaxOn c) cfg = .ok ())
    (hcore : checkRangeCore c cfg = .ok (mn, mx, st)) :
    (check_config c cfg = .ok () ↔ (dmn ≤ mn ∧ mx ≤ dmx ∧ dst ∣ st))
    ∧ (mn < dmn → check_config c cfg = .error (.settingConfig (relaxMinMsg c.name)))
    ∧ (dmn ≤ mn → dmx < mx → check_config c cfg = .error (.settingConfig (relaxMaxMsg c.name)))
    ∧ (dmn ≤ mn → mx ≤ dmx → ¬ dst ∣ st →
        check_config c cfg = .error (.settingConfig (relaxStepMsg c.name))) := by
  obtain ⟨ha, r, hcoreOn⟩ := check_config_ok_parts (relaxOn c) cfg hpre
  have ha' : checkAllowed c.allowedOptions cfg = .ok () := ha
  have hcore2 : checkRangeCore c cfg = .ok r := hcoreOn
  have hr : r = (mn, mx, st) := by
    rw [hcore2] at hcore
    injection hcore
  subst hr
  have hmain : check_config c cfg = checkRelax c mn mx st := by
    unfold check_config
    rw [ha', hcore2, hfr]
    simp only [Bool.false_eq_true, if_false, hrx, if_true]
  have hfmod : Int.fmod st dst = Int.emod st dst := Int.fmod_eq_emod st (le_of_lt hdst)
  have hdstne : dst ≠ 0 := ne_of_gt hdst
  have hfmod_iff : (0 < Int.fmod st dst) ↔ ¬ dst ∣ st := by
    rw [hfmod]
    constructor
    · intro hpos hdvd
      have h0 : Int.emod st dst = 0 := Int.emod_eq_zero_of_dvd hdvd
      rw [h0] at hpos
      exact lt_irrefl 0 hpos
    · intro hnd
      have hge : (0 : Int) ≤ Int.emod st dst := Int.emod_nonneg st hdstne
      rcases eq_or_lt_of_le hge with heq | hlt
      · exact absurd (Int.dvd_of_emod_eq_zero heq.symm) hnd
      · exact hlt
  have hrelax : checkRelax c mn mx st =
      (if mn < dmn then .error (.settingConfig (relaxMinMsg c.name))
       else if dmx < mx then .error (.settingConfig (relaxMaxMsg c.name))
       else if 0 < Int.fmod st dst then .error (.settingConfig (relaxStepMsg c.name))
       else .ok ()) := by
    unfold checkRelax
    rw [isNone_false_of_asInt h1, isNone_false_of_asInt h2, isNone_false_of_asInt h3]
    simp only [Bool.false_eq_true, if_false, h1, h2, h3]
    rw [if_neg hdstne]
  rw [hmain, hrelax]
  refine ⟨?_, ?_, ?_, ?_⟩
  · constructor
    · intro hok
      by_cases hc1 : mn < dmn
      · rw [if_pos hc1] at hok; cases hok
      · rw [if_neg hc1] at hok
        by_cases hc2 : dmx < mx
        · rw [if_pos hc2] at hok; cases hok
        · rw [if_neg hc2] at hok
          by_cases hc3 : 0 < Int.fmod st dst
          · rw [if_pos hc3] at hok; cases hok
          · exact ⟨by omega, by omega, by_contra (fun hnd => hc3 (hfmod_iff.mpr hnd))⟩
    · rintro ⟨hb1, hb2, hb3⟩
      rw [if_neg (by omega), if_neg (by omega), if_neg (fun hpos => (hfmod_iff.mp hpos) hb3)]
  · intro hlt
    rw [if_pos hlt]
  · intro hge hlt
    rw [if_neg (by omega), if_pos hlt]
  · intro hge hle hnd
    rw [if_neg (by omega), if_neg (by omega), if_pos (hfmod_iff.mpr hnd)]

/-- The relaxable=False scavenger subtype with its freeze flag cleared, used to
witness the acceptance direction of the amended C8. -/
def scavNoFreezeClass : RangeClass :=
  { uriScavengerPeriodClass.toRangeClass with freeze_range := false }

/-- C8 witness: without the freeze flag, a configured `min: 20` above the
built-in default `10` is accepted by the relaxation check. -/
theorem c8_witness :
    check_config scavNoFreezeClass [("min", PyObj.int 20)] = .ok () := by
  have h := c8_relax_amended scavNoFreezeClass [("min", PyObj.int 20)]
    20 4294967295 1 10 4294967295 1 rfl rfl rfl rfl rfl (by norm_num) rfl rfl
  exact h.1.mpr ⟨by norm_num, by norm_num, one_dvd 1⟩

/- ### Claim C1 — validate_value over a valid configuration -/

/-- `validate_value` succeeds exactly on a numeric value within the bounds
that, whenever `min < max` and `step > 0`, is step-aligned; and the returned
value is the input itself. -/
theorem validate_value_ok_iff (nm : String) (mn mx st : Int) (v : PyObj) :
    validate_value nm mn mx st v = .ok v ↔
      ∃ n, asInt? v = some n ∧ mn ≤ n ∧ n ≤ mx ∧
        ¬(mn < mx ∧ 0 < st ∧ Int.fmod (n - mn) st ≠ 0) := by
  unfold validate_value
  cases v with
  | none => simp [PyObj.isNone, asInt?]
  | str s => simp [PyObj.isNone, asInt?]
  | list xs => simp [PyObj.isNone, asInt?]
  | dict es => simp [PyObj.isNone, asInt?]
  | bool b =>
    cases b with
    | true =>
      simp only [PyObj.isNone, Bool.false_eq_true, if_false, asInt?, if_true,
        Option.some.injEq]
      split_ifs with h1 h2 h3
      · constructor
        · intro h; cases h
        · rintro ⟨k, hk, hge, hle, hstep⟩; omega
      · constructor
        · intro h; cases h
        · rintro ⟨k, hk, hge, hle, hstep⟩; omega
      · constructor
        · intro h; cases h
        · rintro ⟨k, hk, hge, hle, hstep⟩
          subst hk
          exact absurd h3 hstep
      · constructor
        · intro h; exact ⟨1, rfl, by omega, by omega, h3⟩
        · intro h; rfl
    | false =>
      simp only [PyObj.isNone, Bool.false_eq_true, if_false, asInt?, Option.some.injEq]
      split_ifs with h1 h2 h3
      · constructor
        · intro h; cases h
        · rintro ⟨k, hk, hge, hle, hstep⟩; omega
      · constructor
        · intro h; cases h
        · rintro ⟨k, hk, hge, hle, hstep⟩; omega
      · constructor
        · intro h; cases h
        · rintro ⟨k, hk, hge, hle, hstep⟩
          subst hk
          exact absurd h3 hstep
      · constructor
        · intro h; exact ⟨0, rfl, by omega, by omega, h3⟩
        · intro h; rfl
  | int m =>
    simp only [PyObj.isNone, Bool.false_eq_true, if_false, asInt?, Option.some.injEq]
    split_ifs with h1 h2 h3
    · constructor
      · intro h; cases h
      · rintro ⟨k, hk, hge, hle, hstep⟩; omega
    · constructor
      · intro h; cases h
      · rintro ⟨k, hk, hge, hle, hstep⟩; omega
    · constructor
      · intro h; cases h
      · rintro ⟨k, hk, hge, hle, hstep⟩
        subst hk
        exact absurd h3 hstep
    · constructor
      · intro h; exact ⟨m, rfl, by omega, by omega, h3⟩
      · intro h; rfl

/-- `validate_value` never coerces: any successful result is the input. -/
theorem validate_value_unchanged (nm : String) (mn mx st : Int) (v w : PyObj)
    (h : validate_value nm mn mx st v = .ok w) : w = v := by
  unfold validate_value at h
  by_cases h0 : v.isNone = true
  · rw [if_pos h0] at h; cases h
  · rw [if_neg h0] at h
    cases hv : asInt? v with
    | none =>
      simp only [hv] at h
      exact Except.noConfusion h
    | some n =>
      simp only [hv] at h
      split_ifs at h
      all_goals (injection h with h5; exact h5.symm)

/-- A hypothetical `RangeSetting` subtype with no built-in range and no policy
flags, configured entirely from the static configuration (the base class
allows this; the freeze/relax flags are off by default). -/
def cexClass : RangeClass :=
  { name := "x", allowedOptions := ["default", "min", "max", "step"] }

/-- A valid static configuration with `min = max = 5` and `step = 0` — the
degenerate range the base class explicitly permits (`step` may be `0` when
`min == max`). -/
def cexCfg : Cfg :=
  [("min", PyObj.int 5), ("max", PyObj.int 5), ("step", PyObj.int 0), ("default", PyObj.int 5)]

/-- C1 counterexample: a valid configuration (`min = max = 5`, `step = 0`,
with `step` dividing `max − min = 0` evenly) on which `min − step = 5` *passes*
`validate_value` instead of always failing: the step guard requires
`min < max`, so the degenerate range accepts its single point, which is
exactly `min − step` when `step = 0`. -/
theorem c1_counterexample :
    check_config cexClass cexCfg = .ok ()
    ∧ ((0 : Int) ∣ (5 - 5))
    ∧ validate_value ("x") 5 5 0 (PyObj.int (5 - 0)) = .ok (PyObj.int (5 - 0)) := by
  refine ⟨rfl, ⟨0, by norm_num⟩, rfl⟩

/-- C1 (amended): for every `RangeSetting` constructed from a valid
configuration with effective numeric range `(min, max, step)`:
`validate_value v` succeeds returning `v` unchanged exactly when `v` is a
number `n` with `min ≤ n ≤ max` that, whenever `min < max` and `step > 0`, is
reachable from `min` in whole steps (`(n − min) mod step = 0`); every value
`min + k·step` inside the bounds passes; and `min − step` and `max + step`
fail whenever `step ≠ 0` (when `step = 0`, which is valid only for
`min = max`, both equal `min` itself and pass — see the counterexample). -/
theorem c1_validate_value_amended (c : RangeClass) (cfg : Cfg) (nm : String) (mn mx st : Int)
    (_hcfg : check_config c cfg = .ok ())
    (hcore : checkRangeCore c cfg = .ok (mn, mx, st)) :
    (∀ v, validate_value nm mn mx st v = .ok v ↔
        ∃ n, asInt? v = some n ∧ mn ≤ n ∧ n ≤ mx ∧
          ¬(mn < mx ∧ 0 < st ∧ Int.fmod (n - mn) st ≠ 0))
    ∧ (∀ v w, validate_value nm mn mx st v = .ok w → w = v)
    ∧ (∀ k : Int, mn ≤ mn + k * st → mn + k * st ≤ mx →
        validate_value nm mn mx st (.int (mn + k * st)) = .ok (.int (mn + k * st)))
    ∧ (st ≠ 0 →
        exceptOk (validate_value nm mn mx st (.int (mn - st))) = false
        ∧ exceptOk (validate_value nm mn mx st (.int (mx + st))) = false) := by
  obtain ⟨hle, hpos, _⟩ := checkRangeCore_ok_facts c cfg mn mx st hcore
  refine ⟨fun v => validate_value_ok_iff nm mn mx st v,
          fun v w => validate_value_unchanged nm mn mx st v w, ?_, ?_⟩
  · intro k hk1 hk2
    rw [validate_value_ok_iff]
    refine ⟨mn + k * st, rfl, hk1, hk2, ?_⟩
    rintro ⟨hmm, hst, hne⟩
    apply hne
    have hsub : mn + k * st - mn = k * st := by ring
    rw [hsub]
    rw [Int.fmod_eq_emod (k * st) (le_of_lt hst)]
    exact Int.mul_emod_left k st
  · intro hst
    constructor
    · rcases lt_trichotomy st 0 with hneg | hzero | hposs
      · have heq : mn = mx := by
          by_contra hne
          exact absurd (hpos hne) (by omega)
        unfold validate_value
        simp only [PyObj.isNone, Bool.false_eq_true, if_false, asInt?]
        rw [if_neg (by omega), if_pos (by omega)]
        rfl
      · exact absurd hzero hst
      · unfold validate_value
        simp only [PyObj.isNone, Bool.false_eq_true, if_false, asInt?]
        rw [if_pos (by omega)]
        rfl
    · rcases lt_trichotomy st 0 with hneg | hzero | hposs
      · have heq : mn = mx := by
          by_contra hne
          exact absurd (hpos hne) (by omega)
        unfold validate_value
        simp only [PyObj.isNone, Bool.false_eq_true, if_false, asInt?]
        rw [if_pos (by omega)]
        rfl
      · exact absurd hzero hst
      · unfold validate_value
        simp only [PyObj.isNone, Bool.false_eq_true, if_false, asInt?]
        rw [if_neg (by omega), if_pos (by omega)]
        rfl

/-- C1 witness: instantiating the amended theorem on the constructed
`UriScavengerPeriodSetting` range `(10, 0xFFFFFFFF, 1)`: the boundary value
`min − step = 9` is rejected. -/
theorem c1_witness :
    exceptOk (validate_value ("UriScavengerPeriod") 10 4294967295 1 (PyObj.int (10 - 1))) = false := by
  have h := c1_validate_value_amended uriScavengerPeriodClass.toRangeClass [] "UriScavengerPeriod"
    10 4294967295 1 rfl rfl
  exact (h.2.2.2 (by norm_num)).1

/- ### Claim C4 — decode fallback to the default -/

/-- C4 counterexample: a `WebConfigRangeSetting` whose filter block is present
but holds no entry under the resolved name (`enabled`) raises an
`EncoderRuntimeException` instead of returning the static default `1`. -/
theorem c4_counterexample :
    webConfigCacheEnabled.decode_option (PyObj.dict [("maxCacheSize", PyObj.int 0)]) ("P") =
      .error (.encoderRuntime (wcLocateMsg ("enabled"))) := rfl

/-- C4 (amended): only registry settings fall back to the default, and only
when the path's dict is truthy (non-empty): a registry scope that is present
and non-empty but holds no entry under the setting's name decodes to the
static default; a present but *empty* registry scope raises
`EncoderRuntimeException` (it is falsy, indistinguishable from a missing
path); and a web-config setting whose resolved name is absent from its filter
block always raises `EncoderRuntimeException`, never the default. -/
theorem c4_decode_default_amended :
    (∀ (s : RegistryRangeSetting) (entries es : List (String × PyObj)) (d : Int),
        dGet entries s.path = some (PyObj.dict es) → es ≠ [] →
        dGet es s.name = Option.none → pyToInt s.default = .ok d →
        s.decode_option (PyObj.dict entries) = .ok d)
    ∧ (∀ (s : RegistryRangeSetting) (entries : List (String × PyObj)),
        dGet entries s.path = some (PyObj.dict []) →
        s.decode_option (PyObj.dict entries) =
          .error (.encoderRuntime (regPathMsg s.path s.name)))
    ∧ (∀ (w : WebConfigRangeSetting) (es : List (String × PyObj)) (path : String),
        dGet es w.locator = Option.none →
        w.decode_option (PyObj.dict es) path =
          .error (.encoderRuntime (wcLocateMsg w.locator))) := by
  refine ⟨?_, ?_, ?_⟩
  · intro s entries es d hpath hne hname hdef
    have hdec : codecDecode s.codec s.default = .ok d := by
      cases s.codec with
      | intToStr => exact hdef
      | intToBool => exact hdef
    cases es with
    | nil => exact absurd rfl hne
    | cons a as =>
      simp [RegistryRangeSetting.decode_option, pyGet, hpath, truthy, pyGetD, hname,
        catchValue, hdec, except_bind_ok]
  · intro s entries hpath
    simp only [RegistryRangeSetting.decode_option, pyGet, hpath, truthy, except_bind_ok,
      Option.getD_some]
    rfl
  · intro w es path hname
    simp only [WebConfigRangeSetting.decode_option, pyIndex, hname]
    rfl

/-- C4 witness: a registry scope holding only unrelated keys decodes to the
default `1`; a web-config block with a wrong key raises. -/
theorem c4_witness :
    uriEnableCache.decode_option
      (PyObj.dict [(uriHttpParamsPath, PyObj.dict [("PSPath", PyObj.str ("x"))])]) = .ok 1
    ∧ webConfigEnableKernelCache.decode_option
        (PyObj.dict [("enabled", PyObj.bool true)]) ("M") =
        .error (.encoderRuntime (wcLocateMsg ("enableKernelCache"))) :=
  ⟨c4_decode_default_amended.1 uriEnableCache _ [("PSPath", PyObj.str ("x"))] 1 rfl
      (List.cons_ne_nil _ _) rfl rfl,
   c4_decode_default_amended.2.2 webConfigEnableKernelCache [("enabled", PyObj.bool true)]
      "M" rfl⟩

/- ### Claim C5 — decode_multi coverage -/

/-- The keys of a successful `_decode_multi` are exactly the owned settings
that are not `WebConfigRangeSetting`s, in table order. -/
theorem decodeMultiLoop_keys (allS : List (String × SettingInst)) (data : PyObj) :
    ∀ (ss : List (String × SettingInst)) (m : List (String × PyObj)),
      decodeMultiLoop allS data ss = .ok m →
      m.map Prod.fst = (ss.filter (fun kv => ¬ kv.2.isWcRange)).map Prod.fst := by
  intro ss
  induction ss with
  | nil =>
    intro m h
    injection h with h5
    subst h5
    rfl
  | cons hd rest ih =>
    intro m h
    obtain ⟨n, inst⟩ := hd
    cases inst with
    | wcRange s =>
      simp only [decodeMultiLoop] at h
      rw [ih m h]
      simp [SettingInst.isWcRange]
    | wcList =>
      simp only [decodeMultiLoop] at h
      cases hv : wcListDecodeOption data allS with
      | error e =>
        simp only [hv, except_bind_error] at h
        exact Except.noConfusion h
      | ok v =>
        simp only [hv, except_bind_ok] at h
        cases hr : decodeMultiLoop allS data rest with
        | error e =>
          simp only [hr, except_bind_error] at h
          exact Except.noConfusion h
        | ok r =>
          simp only [hr, except_bind_ok] at h
          injection h with h5
          subst h5
          simp [SettingInst.isWcRange, ih r hr]
    | reg s =>
      simp only [decodeMultiLoop] at h
      cases hv : RegistryRangeSetting.decode_option s data with
      | error e =>
        simp only [hv, except_bind_error] at h
        exact Except.noConfusion h
      | ok v =>
        simp only [hv, except_bind_ok] at h
        cases hr : decodeMultiLoop allS data rest with
        | error e =>
          simp only [hr, except_bind_error] at h
          exact Except.noConfusion h
        | ok r =>
          simp only [hr, except_bind_ok] at h
          injection h with h5
          subst h5
          simp [SettingInst.isWcRange, ih r hr]

/-- C5 (amended): (i) the map returned by `_decode_multi` covers, in order,
exactly the owned settings that are *not* `WebConfigRangeSetting`s (those are
only represented nested inside the aggregate `WebConfig` entry); every
contained setting contributes one entry.  (ii) A registry setting whose path
cannot be located in the structured data raises an `EncoderRuntimeException`
rather than mapping to its default.  (iii) The aggregate `WebConfig` setting
decodes to `None` when the data has no `WebConfig` entry. -/
theorem c5_decode_multi_amended :
    (∀ (enc : Encoder) (data : PyObj) (m : List (String × PyObj)),
        decodeMultiRaw enc data = .ok m →
        m.map Prod.fst = (enc.settings.filter (fun kv => ¬ kv.2.isWcRange)).map Prod.fst)
    ∧ (∀ (s : RegistryRangeSetting) (entries : List (String × PyObj)),
        dGet entries s.path = Option.none →
        s.decode_option (PyObj.dict entries) =
          .error (.encoderRuntime (regPathMsg s.path s.name)))
    ∧ (∀ (settings : List (String × SettingInst)) (entries : List (String × PyObj)),
        dGet entries ("WebConfig") = Option.none →
        wcListDecodeOption (PyObj.dict entries) settings = .ok PyObj.none) := by
  refine ⟨?_, ?_, ?_⟩
  · intro enc data m h
    exact decodeMultiLoop_keys enc.settings data enc.settings m h
  · intro s entries hpath
    simp only [RegistryRangeSetting.decode_option, pyGet, hpath, Option.getD_none,
      truthy, except_bind_ok]
    rfl
  · intro settings entries hwc
    simp only [wcListDecodeOption, pyGet, hwc, Option.getD_none, truthy, except_bind_ok]
    rfl

/-- An encoder owning one web-config range setting. -/
def encOneWc : Encoder :=
  { settings := [("WebConfigCacheEnabled", SettingInst.wcRange webConfigCacheEnabled)] }

/-- C5 counterexample: an encoder owning the setting `WebConfigCacheEnabled`
returns a map with *no* entry for it (the loop filters out
`WebConfigRangeSetting`s), refuting "one entry for every setting owned". -/
theorem c5_counterexample :
    encOneWc.settings.map Prod.fst = ["WebConfigCacheEnabled"]
    ∧ decodeMultiRaw encOneWc (PyObj.dict []) = .ok [] := ⟨rfl, rfl⟩

/-- An encoder owning one registry setting. -/
def encOneReg : Encoder :=
  { settings := [("UriEnableCache", SettingInst.reg uriEnableCache)] }

/-- C5 witness: on a registry-only encoder the decoded map covers exactly the
owned (non-web-config-range) settings; a registry decode with an absent path
raises; the aggregate decodes to `None` on data with no `WebConfig` entry. -/
theorem c5_witness :
    (([("UriEnableCache", PyObj.int 1)] : List (String × PyObj)).map Prod.fst =
      (encOneReg.settings.filter (fun kv => ¬ kv.2.isWcRange)).map Prod.fst)
    ∧ uriEnableCache.decode_option (PyObj.dict []) =
        .error (.encoderRuntime (regPathMsg uriHttpParamsPath ("UriEnableCache")))
    ∧ wcListDecodeOption (PyObj.dict []) encOneReg.settings = .ok PyObj.none :=
  ⟨c5_decode_multi_amended.1 encOneReg
      (PyObj.dict [(uriHttpParamsPath, PyObj.dict [("UriEnableCache", PyObj.int 1)])])
      [("UriEnableCache", PyObj.int 1)] rfl,
   c5_decode_multi_amended.2.1 uriEnableCache [] rfl,
   c5_decode_multi_amended.2.2 encOneReg.settings [] rfl⟩

/- ### Claim C6 — unclaimed keys abort encode_multi -/

/-- After the encode loop, the remaining entries are exactly those whose key
names no owned setting. -/
theorem encodeMultiLoop_rem (allS : List (String × SettingInst)) :
    ∀ (ss : List (String × SettingInst)) (vals : List (String × PyObj)) (acc : String)
      (rem : List (String × PyObj)) (out : String),
      encodeMultiLoop allS ss vals acc = .ok (rem, out) →
      rem = vals.filter (fun kv => ¬ kv.1 ∈ ss.map Prod.fst) := by
  intro ss
  induction ss with
  | nil =>
    intro vals acc rem out h
    injection h with h5
    have h6 : vals = rem := congrArg Prod.fst h5
    subst h6
    symm
    apply List.filter_eq_self.mpr
    intro kv _
    simp
  | cons hd rest ih =>
    intro vals acc rem out h
    obtain ⟨n, inst⟩ := hd
    simp only [encodeMultiLoop] at h
    have hmerge : ∀ r : List (String × PyObj),
        r = (vals.filter (fun kv => kv.1 ≠ n)).filter
              (fun kv => ¬ kv.1 ∈ rest.map Prod.fst) →
        r = vals.filter (fun kv => ¬ kv.1 ∈ ((n, inst) :: rest).map Prod.fst) := by
      intro r hr
      rw [hr, List.filter_filter]
      apply List.filter_congr
      intro kv _
      by_cases h1 : kv.1 = n <;> by_cases h2 : kv.1 ∈ rest.map Prod.fst <;>
        simp [h1, h2]
    by_cases hsv : ((vals.lookup n).getD .none).isNone = true
    · rw [if_pos hsv] at h
      exact hmerge rem (ih _ _ _ _ h)
    · rw [if_neg hsv] at h
      cases he : instEncode allS inst ((vals.lookup n).getD .none) with
      | error e =>
        simp only [he, except_bind_error] at h
        exact Except.noConfusion h
      | ok e =>
        simp only [he, except_bind_ok] at h
        exact hmerge rem (ih _ _ _ _ h)

/-- C6 counterexample: the unclaimed-keys check runs only *after* the
per-setting encode loop, so a values map holding both an invalid owned value
(`UriEnableCache: "x"`) and an unknown key (`Bogus`) fails with the
per-setting `SettingRuntimeException` — not with an `EncoderRuntimeException`
naming the leftover keys, refuting the claim as universally stated. -/
theorem c6_counterexample :
    ("Bogus" ∈ ([("UriEnableCache", PyObj.str ("x")), ("Bogus", PyObj.int 1)] :
        List (String × PyObj)).map Prod.fst)
    ∧ ¬ "Bogus" ∈ encOneReg.settings.map Prod.fst
    ∧ encodeMultiRaw encOneReg [("UriEnableCache", PyObj.str ("x")), ("Bogus", PyObj.int 1)] =
        .error (.settingRuntime ("Value in setting " ++ qs ("UriEnableCache") ++
          " must be either integer or float.")) :=
  ⟨by simp, by simp [encOneReg], rfl⟩

/-- C6 (amended): whenever `values` contains a key naming no owned setting,
`_encode_multi` never returns output; and provided every owned setting's
encoding succeeds (none of the supplied owned values is invalid), it fails
with the `EncoderRuntimeException` naming exactly the leftover keys.  When an
owned value is itself invalid, the per-setting exception is raised first
instead — see the counterexample. -/
theorem c6_encode_unknown_keys (enc : Encoder) (values : List (String × PyObj))
    (hbad : values.filter (fun kv => ¬ kv.1 ∈ enc.settings.map Prod.fst) ≠ []) :
    (∀ s, encodeMultiRaw enc values ≠ .ok s)
    ∧ (∀ rem out,
        encodeMultiLoop enc.settings enc.settings values enc.before = .ok (rem, out) →
        encodeMultiRaw enc values = .error (.encoderRuntime (unsupportedMsg
          ((values.filter (fun kv => ¬ kv.1 ∈ enc.settings.map Prod.fst)).map Prod.fst)))) := by
  have hempty : ∀ rem out,
      encodeMultiLoop enc.settings enc.settings values enc.before = .ok (rem, out) →
      rem.isEmpty = false := by
    intro rem out hl
    have hrem := encodeMultiLoop_rem enc.settings enc.settings values enc.before rem out hl
    cases hrm : rem with
    | nil => rw [hrm] at hrem; exact absurd hrem.symm hbad
    | cons a as => rfl
  constructor
  · intro s hok
    unfold encodeMultiRaw at hok
    cases hl : encodeMultiLoop enc.settings enc.settings values enc.before with
    | error e =>
      simp only [hl, except_bind_error] at hok
      exact Except.noConfusion hok
    | ok r =>
      simp only [hl, except_bind_ok] at hok
      rw [hempty r.1 r.2 hl] at hok
      simp at hok
  · intro rem out hl
    have hrem := encodeMultiLoop_rem enc.settings enc.settings values enc.before rem out hl
    have hemp := hempty rem out hl
    unfold encodeMultiRaw
    rw [hl]
    simp only [except_bind_ok, hemp, Bool.false_eq_true, if_false]
    rw [hrem]
    rfl

/-- C6 witness: one owned registry setting, one unknown key `Bogus`: the call
fails with the message naming `Bogus`. -/
theorem c6_witness :
    encodeMultiRaw encOneReg [("Bogus", PyObj.int 3)] =
      .error (.encoderRuntime (unsupportedMsg ["Bogus"])) := by
  have h := c6_encode_unknown_keys encOneReg [("Bogus", PyObj.int 3)]
    (List.cons_ne_nil _ _)
  exact h.2 [("Bogus", PyObj.int 3)] "" rfl

/- ### Claim C10 — a null value is the same as omitting the setting -/

/-- Looking a key up after filtering a *different* key out is unchanged. -/
theorem lookup_filter_ne (drop key : String) (h : drop ≠ key) (vals : List (String × PyObj)) :
    (vals.filter (fun kv => kv.1 ≠ drop)).lookup key = vals.lookup key := by
  induction vals with
  | nil => rfl
  | cons kv rest ih =>
    obtain ⟨k, v⟩ := kv
    simp only [List.filter_cons]
    by_cases hk : k = drop
    · rw [if_neg (by simp [hk])]
      have hne : (key == k) = false := by
        rw [beq_eq_false_iff_ne]
        intro hkey
        exact h (by rw [← hk, ← hkey])
      rw [ih]
      simp only [List.lookup, hne]
    · rw [if_pos (by simp [hk])]
      cases hb : (key == k) with
      | true => simp only [List.lookup, hb]
      | false =>
        simp only [List.lookup, hb]
        exact ih

/-- Looking up a key after filtering that same key out yields nothing. -/
theorem lookup_filter_self (drop : String) (vals : List (String × PyObj)) :
    (vals.filter (fun kv => kv.1 ≠ drop)).lookup drop = Option.none := by
  induction vals with
  | nil => rfl
  | cons kv rest ih =>
    obtain ⟨k, v⟩ := kv
    simp only [List.filter_cons]
    by_cases hk : k = drop
    · rw [if_neg (by simp [hk])]
      exact ih
    · rw [if_pos (by simp [hk])]
      have hne : (drop == k) = false := by
        rw [beq_eq_false_iff_ne]
        exact fun hdk => hk hdk.symm
      simp only [List.lookup, hne]
      exact ih

/-- Filtering the same key twice is filtering once. -/
theorem filter_key_idem (drop : String) (vals : List (String × PyObj)) :
    (vals.filter (fun kv => kv.1 ≠ drop)).filter (fun kv => kv.1 ≠ drop) =
      vals.filter (fun kv => kv.1 ≠ drop) := by
  rw [List.filter_filter]
  apply List.filter_congr
  intro kv _
  by_cases h : kv.1 = drop <;> simp [h]

/-- Key filters commute. -/
theorem filter_key_comm (a b : String) (vals : List (String × PyObj)) :
    (vals.filter (fun kv => kv.1 ≠ a)).filter (fun kv => kv.1 ≠ b) =
      (vals.filter (fun kv => kv.1 ≠ b)).filter (fun kv => kv.1 ≠ a) := by
  rw [List.filter_filter, List.filter_filter]
  apply List.filter_congr
  intro kv _
  by_cases h1 : kv.1 = a <;> by_cases h2 : kv.1 = b <;> simp [h1, h2]

/-- The encode loop treats a key mapped to `None` exactly like an absent key:
the entry is popped and skipped, and the loop proceeds identically. -/
theorem encodeMultiLoop_none_skip (allS : List (String × SettingInst)) (name : String) :
    ∀ (ss : List (String × SettingInst)) (vals : List (String × PyObj)) (acc : String),
      name ∈ ss.map Prod.fst → vals.lookup name = some PyObj.none →
      encodeMultiLoop allS ss vals acc =
        encodeMultiLoop allS ss (vals.filter (fun kv => kv.1 ≠ name)) acc := by
  intro ss
  induction ss with
  | nil =>
    intro vals acc hmem hval
    simp at hmem
  | cons hd rest ih =>
    intro vals acc hmem hval
    obtain ⟨n, inst⟩ := hd
    by_cases hn : n = name
    · subst hn
      have h2 : (vals.filter (fun kv => kv.1 ≠ n)).lookup n = Option.none :=
        lookup_filter_self n vals
      simp only [encodeMultiLoop, hval, h2, Option.getD_some, Option.getD_none,
        PyObj.isNone, if_true]
      rw [filter_key_idem]
    · have hne : n ≠ name := hn
      have hlk : (vals.filter (fun kv => kv.1 ≠ name)).lookup n = vals.lookup n :=
        lookup_filter_ne name n (Ne.symm hne) vals
      have hmem2 : name ∈ rest.map Prod.fst := by
        rcases List.mem_cons.mp hmem with heq | hmem2
        · exact absurd heq.symm hne
        · exact hmem2
      have hval2 : (vals.filter (fun kv => kv.1 ≠ n)).lookup name = some PyObj.none := by
        rw [lookup_filter_ne n name hne vals]
        exact hval
      simp only [encodeMultiLoop, hlk]
      by_cases hsv : ((vals.lookup n).getD .none).isNone = true
      · rw [if_pos hsv, if_pos hsv]
        rw [filter_key_comm name n vals]
        exact ih _ _ hmem2 hval2
      · rw [if_neg hsv, if_neg hsv]
        cases he : instEncode allS inst ((vals.lookup n).getD .none) with
        | error e => simp only [he, except_bind_error]
        | ok e =>
          simp only [he, except_bind_ok]
          rw [filter_key_comm name n vals]
          exact ih _ _ hmem2 hval2

/-- C10: mapping an owned setting name to `None` in the values of
`encode_multi` produces exactly the same result, for every expected output
type, as omitting the entry entirely: it is skipped without error, contributes
nothing, and is not reported as an unclaimed leftover key. -/
theorem c10_none_equals_omitted (enc : Encoder) (values : List (String × PyObj)) (name : String)
    (hown : name ∈ enc.settings.map Prod.fst)
    (hval : values.lookup name = some PyObj.none) (et : ExpectedType) :
    encode_multi enc values et =
      encode_multi enc (values.filter (fun kv => kv.1 ≠ name)) et := by
  have hraw : encodeMultiRaw enc values =
      encodeMultiRaw enc (values.filter (fun kv => kv.1 ≠ name)) := by
    unfold encodeMultiRaw
    rw [encodeMultiLoop_none_skip enc.settings name enc.settings values enc.before hown hval]
  unfold encode_multi
  rw [hraw]

/-- C10 witness: on a registry-only encoder, `{UriEnableCache: None}` encodes
exactly like the empty values map. -/
theorem c10_witness :
    encode_multi encOneReg [("UriEnableCache", PyObj.none)] ExpectedType.str =
      encode_multi encOneReg [] ExpectedType.str :=
  c10_none_equals_omitted encOneReg [("UriEnableCache", PyObj.none)] "UriEnableCache"
    (by simp [encOneReg]) rfl ExpectedType.str

/- ### Claim C9 — deduplication of read statements in encode_describe -/

/-- Concatenation of a list of script fragments. -/
def strJoin : List String → String
  | [] => ""
  | s :: rest => s ++ strJoin rest

/-- The filters newly emitted by `wcFilterLoop` after a given done-set. -/
def wcNewFilters : List (String × SettingInst) → List String → List String
  | [], _ => []
  | (_, SettingInst.wcRange w) :: rest, done =>
    if w.filter ∈ done then wcNewFilters rest done
    else w.filter :: wcNewFilters rest (done ++ [w.filter])
  | (_, SettingInst.reg _) :: rest, done => wcNewFilters rest done
  | (_, SettingInst.wcList) :: rest, done => wcNewFilters rest done

theorem wcFilterLoop_fst (path : String) :
    ∀ (ss : List (String × SettingInst)) (done : List String) (acc : String),
      (wcFilterLoop path ss done acc).1 = done ++ wcNewFilters ss done := by
  intro ss
  induction ss with
  | nil => intro done acc; simp [wcFilterLoop, wcNewFilters]
  | cons hd rest ih =>
    intro done acc
    obtain ⟨n, inst⟩ := hd
    cases inst with
    | wcRange w =>
      by_cases hmem : w.filter ∈ done
      · simp only [wcFilterLoop, wcNewFilters, if_pos hmem]
        exact ih done acc
      · simp only [wcFilterLoop, wcNewFilters, if_neg hmem]
        rw [ih (done ++ [w.filter]) (acc ++ wcReadLine path w.filter)]
        rw [List.append_assoc, List.singleton_append]
    | reg s => simp only [wcFilterLoop, wcNewFilters]; exact ih done acc
    | wcList => simp only [wcFilterLoop, wcNewFilters]; exact ih done acc

theorem wcFilterLoop_snd (path : String) :
    ∀ (ss : List (String × SettingInst)) (done : List String) (acc : String),
      (wcFilterLoop path ss done acc).2 =
        acc ++ strJoin ((wcNewFilters ss done).map (wcReadLine path)) := by
  intro ss
  induction ss with
  | nil => intro done acc; simp [wcFilterLoop, wcNewFilters, strJoin]
  | cons hd rest ih =>
    intro done acc
    obtain ⟨n, inst⟩ := hd
    cases inst with
    | wcRange w =>
      by_cases hmem : w.filter ∈ done
      · simp only [wcFilterLoop, wcNewFilters, if_pos hmem]
        exact ih done acc
      · simp only [wcFilterLoop, wcNewFilters, if_neg hmem, List.map_cons, strJoin]
        rw [ih (done ++ [w.filter]) (acc ++ wcReadLine path w.filter)]
        rw [String.append_assoc]
    | reg s => simp only [wcFilterLoop, wcNewFilters]; exact ih done acc
    | wcList => simp only [wcFilterLoop, wcNewFilters]; exact ih done acc

theorem wcNewFilters_nodup :
    ∀ (ss : List (String × SettingInst)) (done : List String), done.Nodup →
      (done ++ wcNewFilters ss done).Nodup := by
  intro ss
  induction ss with
  | nil => intro done h; simpa [wcNewFilters]
  | cons hd rest ih =>
    intro done h
    obtain ⟨n, inst⟩ := hd
    cases inst with
    | wcRange w =>
      by_cases hmem : w.filter ∈ done
      · simp only [wcNewFilters, if_pos hmem]
        exact ih done h
      · simp only [wcNewFilters, if_neg hmem]
        have h2 : (done ++ [w.filter]).Nodup := by
          rw [List.nodup_append]
          refine ⟨h, List.nodup_singleton _, ?_⟩
          intro a ha hb
          rw [List.mem_singleton] at hb
          subst hb
          exact hmem ha
        have h3 := ih (done ++ [w.filter]) h2
        rw [List.append_assoc, List.singleton_append] at h3
        exact h3
    | reg s => simp only [wcNewFilters]; exact ih done h
    | wcList => simp only [wcNewFilters]; exact ih done h

/-- The registry paths recorded by the `encode_describe` loop stay duplicate
free: a read statement is only emitted (and its path recorded) when the path
was not yet seen. -/
theorem encDescribeLoop_done_nodup (allS : List (String × SettingInst)) (adjust : PyObj) :
    ∀ (ss : List (String × SettingInst)) (done : List String) (acc : String)
      (d : List String) (s : String), done.Nodup →
      encDescribeLoop allS adjust ss done acc = .ok (d, s) → d.Nodup := by
  intro ss
  induction ss with
  | nil =>
    intro done acc d s hnd h
    injection h with h5
    have h6 : done = d := congrArg Prod.fst h5
    exact h6 ▸ hnd
  | cons hd rest ih =>
    intro done acc d s hnd h
    obtain ⟨n, inst⟩ := hd
    cases inst with
    | wcList =>
      simp only [encDescribeLoop] at h
      cases hb : wcListEncodeDescribe adjust (allS.filter (fun kv => kv.2.isWcRange)) with
      | error e =>
        simp only [hb, except_bind_error] at h
        exact Except.noConfusion h
      | ok b =>
        simp only [hb, except_bind_ok] at h
        exact ih done _ d s hnd h
    | wcRange w =>
      simp only [encDescribeLoop] at h
      exact ih done acc d s hnd h
    | reg r =>
      simp only [encDescribeLoop] at h
      by_cases hmem : r.path ∈ done
      · rw [if_pos hmem] at h
        exact ih done acc d s hnd h
      · rw [if_neg hmem] at h
        have h2 : (done ++ [r.path]).Nodup := by
          rw [List.nodup_append]
          refine ⟨hnd, List.nodup_singleton _, ?_⟩
          intro a ha hb2
          rw [List.mem_singleton] at hb2
          subst hb2
          exact hmem ha
        exact ih (done ++ [r.path]) _ d s h2 h

/-- The encoder of the claim's example: the aggregate `WebConfig` setting plus
two web-config settings sharing the filter `system.webServer/caching`. -/
def encC9 : Encoder :=
  { settings := [("WebConfig", SettingInst.wcList),
      ("WebConfigCacheEnabled", SettingInst.wcRange webConfigCacheEnabled),
      ("WebConfigEnableKernelCache", SettingInst.wcRange webConfigEnableKernelCache)] }

/-- The adjust configuration of the example: a single web-config path `P`. -/
def adjC9 : PyObj :=
  PyObj.dict [("WebConfig", PyObj.dict
    [("value", PyObj.list [PyObj.dict [("path", PyObj.str ("P"))]])])]

/-- The full read script of the example — it contains exactly one
`Get-WebConfiguration` statement for the shared `(P, filter)` pair. -/
def exC9 : String :=
  "Import-Module WebAdministration\n@\x7b\n\t\"WebConfig\" = @\x7b\n\t\t\"P\" = @\x7b\n" ++
  "\t\t\t\"system.webServer/caching\" = Get-WebConfiguration -pspath \"P\" -filter \"system.webServer/caching\"\n" ++
  "\t\t\x7d\n\t\x7d\n\x7d | ConvertTo-Json\n"

/-- The adjust configuration of the counterexample: the web-config path `P`
listed twice. -/
def adjC9dup : PyObj :=
  PyObj.dict [("WebConfig", PyObj.dict
    [("value", PyObj.list [PyObj.dict [("path", PyObj.str ("P"))],
                           PyObj.dict [("path", PyObj.str ("P"))]])])]

set_option maxRecDepth 10000 in
/-- C9 counterexample: `filters_done` is re-initialized for every path record,
so an adjust configuration that lists the same path `P` twice produces a read
script containing the read statement for the pair
`(P, system.webServer/caching)` *twice* — refuting "at most one read statement
per unique (path, filter) pair" for every adjust configuration. -/
theorem c9_counterexample :
    encode_describe encC9 adjC9dup =
      .ok ("Import-Module WebAdministration\n@\x7b\n\t\"WebConfig\" = @\x7b\n" ++
        "\t\t\"P\" = @\x7b\n" ++ wcReadLine ("P") ("system.webServer/caching") ++ "\t\t\x7d\n" ++
        "\t\t\"P\" = @\x7b\n" ++ wcReadLine ("P") ("system.webServer/caching") ++ "\t\t\x7d\n" ++
        "\t\x7d\n\x7d | ConvertTo-Json\n") := rfl

/-- C9 (amended): the read script deduplicates per path block and per registry
path, but not across repeated path records.  (i) For any path, the filter loop
of the WebConfig block emits a duplicate-free filter list and its text is
exactly one read statement per emitted filter — so two settings sharing a
filter under one path yield one statement, not two; (ii) the registry read
loop records each registry path at most once; (iii) in the claim's example —
two WebConfigSettings sharing one filter under path `P` — `encode_describe`
yields exactly the script with the single read statement for that pair.  An
adjust configuration repeating a path emits that path's block once per
occurrence (see the counterexample). -/
theorem c9_describe_dedup :
    (∀ (path : String) (ss : List (String × SettingInst)),
        (wcFilterLoop path ss [] "").1.Nodup
        ∧ (wcFilterLoop path ss [] "").2 =
            strJoin (((wcFilterLoop path ss [] "").1).map (wcReadLine path)))
    ∧ (∀ (allS : List (String × SettingInst)) (adjust : PyObj)
        (ss : List (String × SettingInst)) (d : List String) (s : String),
        encDescribeLoop allS adjust ss [] "" = .ok (d, s) → d.Nodup)
    ∧ encode_describe encC9 adjC9 = .ok exC9 := by
  refine ⟨?_, ?_, ?_⟩
  · intro path ss
    have h1 := wcFilterLoop_fst path ss [] ""
    have h2 := wcFilterLoop_snd path ss [] ""
    have h3 := wcNewFilters_nodup ss [] (List.nodup_nil)
    simp only [List.nil_append] at h1 h3
    constructor
    · rw [h1]; exact h3
    · rw [h2, h1]
      simp
  · intro allS adjust ss d s h
    exact encDescribeLoop_done_nodup allS adjust ss [] "" d s List.nodup_nil h
  · rfl

/-- C9 witness: on a registry-only encoder the describe loop succeeds and its
recorded path list is duplicate free. -/
theorem c9_witness :
    ([uriHttpParamsPath] : List String).Nodup :=
  c9_describe_dedup.2.1 encOneReg.settings (PyObj.dict []) encOneReg.settings
    [uriHttpParamsPath]
    ("\t\"" ++ uriHttpParamsPath ++ "\" = Get-ItemProperty -Path \"" ++ uriHttpParamsPath ++ "\"\n")
    rfl

end Dotnet
